import Mathlib

/-!
Shallow embedding of the Woolz non-maximal suppression filter
(`src/libWlz/WlzNMSuppress.c`) and proofs about the embedded code.

Conventions used throughout:
* C `int` is modelled as `Int`.  C integer division truncates toward zero
  and is therefore modelled by `Int.tdiv`; the C `%` on the (non-negative)
  buffer row counters is modelled by `Int.emod` (Lean's `%` on `Int`).
* C `double` is modelled as `ℚ` with exact arithmetic; `DBL_EPSILON` is the
  exact rational value 2 ^ (-52) of the IEEE-754 double epsilon.
* Buffers (`int *`, `double *`, `UBYTE *`) are modelled as total functions
  from the pointer-offset index; a store is a pointwise functional update.
* `WlzDynItvAdd` appends one interval record `(line, left, length)` to the
  destination interval domain; allocation is modelled as always succeeding,
  so the scanners' returned error code is always `WLZ_ERR_NONE`.
-/

set_option autoImplicit false

namespace Woolz

/-- Woolz error codes (the subset reachable from `WlzNMSuppress.c`). -/
inductive WlzErrorNum where
  | WLZ_ERR_NONE
  | WLZ_ERR_OBJECT_NULL
  | WLZ_ERR_DOMAIN_NULL
  | WLZ_ERR_VALUES_NULL
  | WLZ_ERR_OBJECT_TYPE
  | WLZ_ERR_MEM_ALLOC
  deriving DecidableEq

/-- Direction look-up table `dTable[8] = {3, 2, 0, 1, 4, 5, 7, 6}` shared by
both scanner variants (`WlzNMSuppress.c:115` and `WlzNMSuppress.c:285`). -/
def dTable : List Nat := [3, 2, 0, 1, 4, 5, 7, 6]

/-- Direction code computation of the integer scanner
(`WlzNMSuppress.c:137-139`):
`dCode = dTable[((gY >= 0) << 2) | ((gX >= 0) << 1) | ((gY*gY) >= (gX*gX))]`. -/
def dirCodeI (gY gX : Int) : Nat :=
  dTable.getD ((((if 0 ≤ gY then 1 else 0) <<< 2) |||
                ((if 0 ≤ gX then 1 else 0) <<< 1)) |||
               (if gX * gX ≤ gY * gY then 1 else 0)) 0

/-- Direction code computation of the floating scanner
(`WlzNMSuppress.c:307-309`); textually identical to the integer one but over
`double` operands. -/
def dirCodeD (gY gX : ℚ) : Nat :=
  dTable.getD ((((if 0 ≤ gY then 1 else 0) <<< 2) |||
                ((if 0 ≤ gX then 1 else 0) <<< 1)) |||
               (if gX * gX ≤ gY * gY then 1 else 0)) 0

/-- The `switch(dCode)` interpolation of the integer scanner
(`WlzNMSuppress.c:141-207`): given the three magnitude rows `prv`, `cur`,
`nxt`, the magnitude-pointer offset `k` (the stencil reads columns `k`,
`k+1`, `k+2`), the centre magnitude `gM = cur (k+1)` and the derivatives
`gY`, `gX`, returns the pair `(gMLft, gMRgt)`.  The C `switch` has no
`default`; a code outside `0..7` is unreachable and mapped to `(0, 0)`. -/
def interpI (prv cur nxt : Int → Int) (k : Int) (gM gY gX : Int)
    (dCode : Nat) : Int × Int :=
  match dCode with
  | 0 =>
    (Int.tdiv ((gM - cur (k + 0)) * gX - (cur (k + 0) - nxt (k + 0)) * gY) gM,
     Int.tdiv ((gM - cur (k + 2)) * gX - (cur (k + 2) - prv (k + 2)) * gY) gM)
  | 1 =>
    (Int.tdiv ((nxt (k + 1) - nxt (k + 0)) * gX - (gM - nxt (k + 1)) * gY) gM,
     Int.tdiv ((prv (k + 1) - prv (k + 2)) * gX - (gM - prv (k + 1)) * gY) gM)
  | 2 =>
    (Int.tdiv ((nxt (k + 2) - nxt (k + 1)) * gX - (gM - nxt (k + 1)) * gY) gM,
     Int.tdiv ((prv (k + 0) - prv (k + 1)) * gX - (gM - prv (k + 1)) * gY) gM)
  | 3 =>
    (Int.tdiv ((cur (k + 2) - gM) * gX - (cur (k + 2) - nxt (k + 2)) * gY) gM,
     Int.tdiv ((cur (k + 0) - gM) * gX - (cur (k + 0) - prv (k + 0)) * gY) gM)
  | 4 =>
    (Int.tdiv ((cur (k + 2) - gM) * gX - (prv (k + 2) - cur (k + 2)) * gY) gM,
     Int.tdiv ((cur (k + 0) - gM) * gX - (nxt (k + 0) - cur (k + 0)) * gY) gM)
  | 5 =>
    (Int.tdiv ((prv (k + 2) - prv (k + 1)) * gX - (prv (k + 1) - gM) * gY) gM,
     Int.tdiv ((nxt (k + 0) - nxt (k + 1)) * gX - (nxt (k + 1) - gM) * gY) gM)
  | 6 =>
    (Int.tdiv ((prv (k + 1) - prv (k + 0)) * gX - (prv (k + 1) - gM) * gY) gM,
     Int.tdiv ((nxt (k + 1) - nxt (k + 2)) * gX - (nxt (k + 1) - gM) * gY) gM)
  | 7 =>
    (Int.tdiv ((gM - cur (k + 0)) * gX - (prv (k + 0) - cur (k + 0)) * gY) gM,
     Int.tdiv ((gM - cur (k + 2)) * gX - (nxt (k + 2) - cur (k + 2)) * gY) gM)
  | _ => (0, 0)

/-- The `switch(dCode)` interpolation of the floating scanner
(`WlzNMSuppress.c:311-377`), textually identical to the integer one but with
exact `double` (here `ℚ`) division. -/
def interpD (prv cur nxt : Int → ℚ) (k : Int) (gM gY gX : ℚ)
    (dCode : Nat) : ℚ × ℚ :=
  match dCode with
  | 0 =>
    (((gM - cur (k + 0)) * gX - (cur (k + 0) - nxt (k + 0)) * gY) / gM,
     ((gM - cur (k + 2)) * gX - (cur (k + 2) - prv (k + 2)) * gY) / gM)
  | 1 =>
    (((nxt (k + 1) - nxt (k + 0)) * gX - (gM - nxt (k + 1)) * gY) / gM,
     ((prv (k + 1) - prv (k + 2)) * gX - (gM - prv (k + 1)) * gY) / gM)
  | 2 =>
    (((nxt (k + 2) - nxt (k + 1)) * gX - (gM - nxt (k + 1)) * gY) / gM,
     ((prv (k + 0) - prv (k + 1)) * gX - (gM - prv (k + 1)) * gY) / gM)
  | 3 =>
    (((cur (k + 2) - gM) * gX - (cur (k + 2) - nxt (k + 2)) * gY) / gM,
     ((cur (k + 0) - gM) * gX - (cur (k + 0) - prv (k + 0)) * gY) / gM)
  | 4 =>
    (((cur (k + 2) - gM) * gX - (prv (k + 2) - cur (k + 2)) * gY) / gM,
     ((cur (k + 0) - gM) * gX - (nxt (k + 0) - cur (k + 0)) * gY) / gM)
  | 5 =>
    (((prv (k + 2) - prv (k + 1)) * gX - (prv (k + 1) - gM) * gY) / gM,
     ((nxt (k + 0) - nxt (k + 1)) * gX - (nxt (k + 1) - gM) * gY) / gM)
  | 6 =>
    (((prv (k + 1) - prv (k + 0)) * gX - (prv (k + 1) - gM) * gY) / gM,
     ((nxt (k + 1) - nxt (k + 2)) * gX - (nxt (k + 1) - gM) * gY) / gM)
  | 7 =>
    (((gM - cur (k + 0)) * gX - (prv (k + 0) - cur (k + 0)) * gY) / gM,
     ((gM - cur (k + 2)) * gX - (nxt (k + 2) - cur (k + 2)) * gY) / gM)
  | _ => (0, 0)

/-- The pair of integer numerators of the `switch(dCode)` interpolation:
both scanner variants divide exactly these expressions by `gM` (the
integer one with C truncating division, the floating one exactly). -/
def interpNum (prv cur nxt : Int → Int) (k gM gY gX : Int)
    (dCode : Nat) : Int × Int :=
  match dCode with
  | 0 =>
    ((gM - cur (k + 0)) * gX - (cur (k + 0) - nxt (k + 0)) * gY,
     (gM - cur (k + 2)) * gX - (cur (k + 2) - prv (k + 2)) * gY)
  | 1 =>
    ((nxt (k + 1) - nxt (k + 0)) * gX - (gM - nxt (k + 1)) * gY,
     (prv (k + 1) - prv (k + 2)) * gX - (gM - prv (k + 1)) * gY)
  | 2 =>
    ((nxt (k + 2) - nxt (k + 1)) * gX - (gM - nxt (k + 1)) * gY,
     (prv (k + 0) - prv (k + 1)) * gX - (gM - prv (k + 1)) * gY)
  | 3 =>
    ((cur (k + 2) - gM) * gX - (cur (k + 2) - nxt (k + 2)) * gY,
     (cur (k + 0) - gM) * gX - (cur (k + 0) - prv (k + 0)) * gY)
  | 4 =>
    ((cur (k + 2) - gM) * gX - (prv (k + 2) - cur (k + 2)) * gY,
     (cur (k + 0) - gM) * gX - (nxt (k + 0) - cur (k + 0)) * gY)
  | 5 =>
    ((prv (k + 2) - prv (k + 1)) * gX - (prv (k + 1) - gM) * gY,
     (nxt (k + 0) - nxt (k + 1)) * gX - (nxt (k + 1) - gM) * gY)
  | 6 =>
    ((prv (k + 1) - prv (k + 0)) * gX - (prv (k + 1) - gM) * gY,
     (nxt (k + 1) - nxt (k + 2)) * gX - (nxt (k + 1) - gM) * gY)
  | 7 =>
    ((gM - cur (k + 0)) * gX - (prv (k + 0) - cur (k + 0)) * gY,
     (gM - cur (k + 2)) * gX - (nxt (k + 2) - cur (k + 2)) * gY)
  | _ => (0, 0)

/-- `DBL_EPSILON` of `float.h`, the exact rational 2 ^ (-52). -/
def DBL_EPSILON : ℚ := 1 / 2 ^ 52

/-- Pointwise functional update modelling a store through a buffer pointer. -/
def upd (f : Int → Nat) (p : Int) (v : Nat) : Int → Nat :=
  fun q => if q = p then v else f q

/-- The mutable state threaded through a scanner row: the direction-value
buffer `dstBuf`, the open interval (`itvLft`, `itvLen`) and the list of
interval records handed to `WlzDynItvAdd` so far. -/
structure NMSState where
  dst : Int → Nat
  itvLft : Int
  itvLen : Nat
  itvs : List (Int × Int × Nat)

/-- Per-pixel decision of the integer scanner (`WlzNMSuppress.c:131-209`):
`some dCode` when the pixel is maximal, `none` otherwise.  The gate is
`gM && (gM > minGM)`; the pixel is maximal when both interpolated slopes are
strictly positive. -/
def maximalI (prv cur nxt : Int → Int) (gYv gXv minGM : Int) (k : Int) :
    Option Nat :=
  let gM := cur (k + 1)
  if gM ≠ 0 ∧ minGM < gM then
    let dCode := dirCodeI gYv gXv
    let s := interpI prv cur nxt k gM gYv gXv dCode
    if 0 < s.1 ∧ 0 < s.2 then some dCode else none
  else none

/-- Per-pixel decision of the floating scanner (`WlzNMSuppress.c:301-379`):
the gate is `(gM * gM) > DBL_EPSILON && (gM > minGM)`; the pixel is maximal
when both interpolated slopes exceed `DBL_EPSILON`. -/
def maximalD (prv cur nxt : Int → ℚ) (gYv gXv minGM : ℚ) (k : Int) :
    Option Nat :=
  let gM := cur (k + 1)
  if DBL_EPSILON < gM * gM ∧ minGM < gM then
    let dCode := dirCodeD gYv gXv
    let s := interpD prv cur nxt k gM gYv gXv dCode
    if DBL_EPSILON < s.1 ∧ DBL_EPSILON < s.2 then some dCode else none
  else none

/-- One-row scan loop of the integer scanner (`WlzNMSuppress.c:125-234`).
Arguments track the C cursors: `cnt` is the remaining iteration count, `k`
the magnitude-pointer offset (stencil columns `k`, `k+1`, `k+2`), `x` the
current `dstPos.vtX` (incremented at the end of every iteration), `j` the
derivative/destination cursor (pre-incremented, so the stores and loads use
`j + 1`).  `line` is `dstPos.vtY + orgPos.vtY` and `kol` is `orgPos.vtX`,
the values used by the `WlzDynItvAdd` call.  In C the condition
`cnt == 0` reads the post-decrement value, i.e. the remaining count. -/
def loopI (prv cur nxt gYb gXb : Int → Int) (minGM line kol : Int) :
    Nat → Int → Int → Int → NMSState → NMSState
  | 0, _, _, _, s => s
  | cnt + 1, k, x, j, s =>
    let j' := j + 1
    let s0 : NMSState := { s with dst := upd s.dst j' 0 }
    let mx := maximalI prv cur nxt (gYb j') (gXb j') minGM k
    let s1 : NMSState :=
      match mx with
      | some dCode =>
        { dst := upd s0.dst j' (dCode ||| 128)
          itvLft := if s0.itvLen = 0 then x else s0.itvLft
          itvLen := s0.itvLen + 1
          itvs := s0.itvs }
      | none => s0
    let s2 : NMSState :=
      if 0 < s1.itvLen ∧ (cnt = 0 ∨ mx = none) then
        { s1 with itvs := s1.itvs ++ [(line, s1.itvLft + kol, s1.itvLen)]
                  itvLen := 0 }
      else s1
    loopI prv cur nxt gYb gXb minGM line kol cnt (k + 1) (x + 1) j' s2

/-- One-row scan loop of the floating scanner (`WlzNMSuppress.c:295-394`).
Unlike the integer loop, the C code neither updates `itvLen`/`itvLft` in its
`if(maximal)` block (`WlzNMSuppress.c:381-384`) nor increments
`dstPos.vtX`, so there is no `x` cursor here and the open interval fields
are only ever read. -/
def loopD (prv cur nxt gYb gXb : Int → ℚ) (minGM : ℚ) (line kol : Int) :
    Nat → Int → Int → NMSState → NMSState
  | 0, _, _, s => s
  | cnt + 1, k, j, s =>
    let j' := j + 1
    let s0 : NMSState := { s with dst := upd s.dst j' 0 }
    let mx := maximalD prv cur nxt (gYb j') (gXb j') minGM k
    let s1 : NMSState :=
      match mx with
      | some dCode => { s0 with dst := upd s0.dst j' (dCode ||| 128) }
      | none => s0
    let s2 : NMSState :=
      if 0 < s1.itvLen ∧ (cnt = 0 ∨ mx = none) then
        { s1 with itvs := s1.itvs ++ [(line, s1.itvLft + kol, s1.itvLen)]
                  itvLen := 0 }
      else s1
    loopD prv cur nxt gYb gXb minGM line kol cnt (k + 1) j' s2

/-- Row selection of the three-row circular magnitude buffer
(`WlzNMSuppress.c:117-119` and `287-289`): row `(vtY + 3 + d) % 3`. -/
def bufRow (grdMBuf : Int → Int → Int) (vtY d : Int) : Int → Int :=
  grdMBuf ((vtY + 3 + d) % 3)

/-- `bufRow` for the `double`-valued magnitude buffer. -/
def bufRowQ (grdMBuf : Int → Int → ℚ) (vtY d : Int) : Int → ℚ :=
  grdMBuf ((vtY + 3 + d) % 3)

/-- The integer scanner `WlzNMSuppress2DBufI` (`WlzNMSuppress.c:90-236`).
`grdMBuf` is the three-row magnitude buffer (first index: ring row), `gYb`
and `gXb` the derivative row buffers, `dst0` the initial contents of the
direction-value buffer, `dstLen` the given interval length, `(posX, posY)`
the buffer position `dstPos` and `(orgX, orgY)` the origin `orgPos`.
Returns the final scan state and the error code (always `WLZ_ERR_NONE`
because interval allocation is modelled as succeeding). -/
def WlzNMSuppress2DBufI (grdMBuf : Int → Int → Int) (gYb gXb : Int → Int)
    (dst0 : Int → Nat) (dstLen : Nat) (posX posY orgX orgY minGM : Int) :
    NMSState × WlzErrorNum :=
  let prv := bufRow grdMBuf posY (-1)
  let cur := bufRow grdMBuf posY 0
  let nxt := bufRow grdMBuf posY 1
  let d2 := upd (upd dst0 0 0) ((dstLen : Int) - 1) 0
  let s0 : NMSState := { dst := d2, itvLft := posX + 1, itvLen := 0, itvs := [] }
  (loopI prv cur nxt gYb gXb minGM (posY + orgY) orgX
     (dstLen - 2) posX (posX + 1) 0 s0, WlzErrorNum.WLZ_ERR_NONE)

/-- The floating scanner `WlzNMSuppress2DBufD` (`WlzNMSuppress.c:260-396`),
with the same calling convention as the integer one but `double` (here `ℚ`)
buffers and threshold. -/
def WlzNMSuppress2DBufD (grdMBuf : Int → Int → ℚ) (gYb gXb : Int → ℚ)
    (dst0 : Int → Nat) (dstLen : Nat) (posX posY orgX orgY : Int)
    (minGM : ℚ) : NMSState × WlzErrorNum :=
  let prv := bufRowQ grdMBuf posY (-1)
  let cur := bufRowQ grdMBuf posY 0
  let nxt := bufRowQ grdMBuf posY 1
  let d2 := upd (upd dst0 0 0) ((dstLen : Int) - 1) 0
  let s0 : NMSState := { dst := d2, itvLft := posX + 1, itvLen := 0, itvs := [] }
  (loopD prv cur nxt gYb gXb minGM (posY + orgY) orgX
     (dstLen - 2) posX 0 s0, WlzErrorNum.WLZ_ERR_NONE)

/-- The direction byte the integer scanner stores for one interior pixel:
`dCode | 0x80` when maximal, `0` otherwise. -/
def byteI (prv cur nxt : Int → Int) (gYv gXv minGM : Int) (k : Int) : Nat :=
  match maximalI prv cur nxt gYv gXv minGM k with
  | some dCode => dCode ||| 128
  | none => 0

/-- The direction byte the floating scanner stores for one interior pixel. -/
def byteD (prv cur nxt : Int → ℚ) (gYv gXv minGM : ℚ) (k : Int) : Nat :=
  match maximalD prv cur nxt gYv gXv minGM k with
  | some dCode => dCode ||| 128
  | none => 0

/-- Woolz object types reachable from the `WlzNMSuppress` dispatcher (all
other Woolz object types hit its `default` branch and are not modelled). -/
inductive WlzObjectType where
  | WLZ_2D_DOMAINOBJ
  | WLZ_3D_DOMAINOBJ
  | WLZ_EMPTY_OBJ
  deriving DecidableEq

/-- A Woolz object as seen by the `WlzNMSuppress` dispatcher: its type, its
domain modelled as the list of pixels it covers, and its grey-value table
modelled as an abstract payload.  The interval-coded layout of domains and
value tables is irrelevant to the dispatch logic and elided. -/
structure WlzObject where
  otype : WlzObjectType
  domain : List (Int × Int)
  values : List Int
  deriving DecidableEq

/-- Sequencing of possibly-NULL object arguments: `some` of the list of
objects when none is NULL. -/
def seqOpt : List (Option WlzObject) → Option (List WlzObject)
  | [] => some []
  | none :: _ => none
  | some o :: rest => (seqOpt rest).map (fun l => o :: l)

/-- Modelled from the spec: `WlzIntersectN` belongs to the geometry library
the spec lists as an out-of-scope collaborator ("intersect N regions").
Per the spec it returns an explicit empty object when the domains share no
common pixel, otherwise a domain object of the inputs' dimensionality
carrying the intersected domain, and a null-object error when an input
object is NULL. -/
def WlzIntersectN (objs : List (Option WlzObject)) :
    Option WlzObject × WlzErrorNum :=
  match seqOpt objs with
  | none => (none, WlzErrorNum.WLZ_ERR_OBJECT_NULL)
  | some [] => (none, WlzErrorNum.WLZ_ERR_OBJECT_NULL)
  | some (o :: rest) =>
    if rest.all (fun r => r.otype == o.otype) then
      let inter := o.domain.filter
        (fun p => rest.all (fun r => decide (p ∈ r.domain)))
      if inter.isEmpty then
        (some ⟨WlzObjectType.WLZ_EMPTY_OBJ, [], []⟩, WlzErrorNum.WLZ_ERR_NONE)
      else (some ⟨o.otype, inter, []⟩, WlzErrorNum.WLZ_ERR_NONE)
    else (none, WlzErrorNum.WLZ_ERR_OBJECT_TYPE)

/-- Modelled from the spec: `WlzMakeEmpty` (library collaborator)
constructs an explicit empty object and reports `WLZ_ERR_NONE`. -/
def WlzMakeEmpty : Option WlzObject × WlzErrorNum :=
  (some ⟨WlzObjectType.WLZ_EMPTY_OBJ, [], []⟩, WlzErrorNum.WLZ_ERR_NONE)

/-- Modelled from the spec: `WlzMakeMain` (library collaborator) wraps a
domain and a value table into a new object; allocation is modelled as
always succeeding. -/
def WlzMakeMain (t : WlzObjectType) (dom : List (Int × Int))
    (vals : List Int) : WlzObject :=
  ⟨t, dom, vals⟩

/-- `WlzNMSuppress3D` (`WlzNMSuppress.c:775-788`): the 3D variant is
unimplemented, always failing with `WLZ_ERR_OBJECT_TYPE` and returning a
NULL object. -/
def WlzNMSuppress3D (grdM grdZ grdY grdX : WlzObject) (minThrV : Int) :
    Option WlzObject × WlzErrorNum :=
  (none, WlzErrorNum.WLZ_ERR_OBJECT_TYPE)

/-- The dispatcher `WlzNMSuppress` (`WlzNMSuppress.c:811-945`).  The 2D
worker `WlzNMSuppress2D` drives the library's interval and grey-table
scanning machinery, so it is taken as the parameter `suppress2D`, receiving
exactly what the source passes it: three objects re-wrapped over the
intersected domain with the respective input's value table, plus the
threshold.  The control flow is transcribed from the source switch: a NULL
magnitude object gives `WLZ_ERR_OBJECT_NULL`; a 2D magnitude object
intersects the three 2D inputs and on an empty intersection returns
`WlzMakeEmpty`; a 3D magnitude object intersects the four inputs and on a
non-empty intersection reaches either the unimplemented `WlzNMSuppress3D`
(the `WLZ_2D_DOMAINOBJ` case of the inner switch) or the `default` branch,
both failing with `WLZ_ERR_OBJECT_TYPE`; an empty magnitude object returns
`WlzMakeEmpty`.  The inner `none` arms are unreachable (a `WLZ_ERR_NONE`
intersection always carries an object). -/
def WlzNMSuppress
    (suppress2D : WlzObject → WlzObject → WlzObject → Int →
      Option WlzObject × WlzErrorNum)
    (grdM grdZ grdY grdX : Option WlzObject) (minThrV : Int) :
    Option WlzObject × WlzErrorNum :=
  match grdM with
  | none => (none, WlzErrorNum.WLZ_ERR_OBJECT_NULL)
  | some gM =>
    match gM.otype with
    | WlzObjectType.WLZ_2D_DOMAINOBJ =>
      let ist := WlzIntersectN [some gM, grdY, grdX]
      if ist.2 = WlzErrorNum.WLZ_ERR_NONE then
        match ist.1 with
        | some istObj =>
          match istObj.otype with
          | WlzObjectType.WLZ_2D_DOMAINOBJ =>
            match grdY, grdX with
            | some gY, some gX =>
              suppress2D
                (WlzMakeMain WlzObjectType.WLZ_2D_DOMAINOBJ istObj.domain
                  gM.values)
                (WlzMakeMain WlzObjectType.WLZ_2D_DOMAINOBJ istObj.domain
                  gY.values)
                (WlzMakeMain WlzObjectType.WLZ_2D_DOMAINOBJ istObj.domain
                  gX.values)
                minThrV
            | _, _ => (none, WlzErrorNum.WLZ_ERR_OBJECT_NULL)
          | WlzObjectType.WLZ_EMPTY_OBJ => WlzMakeEmpty
          | _ => (none, WlzErrorNum.WLZ_ERR_OBJECT_TYPE)
        | none => (none, WlzErrorNum.WLZ_ERR_OBJECT_TYPE)
      else (none, ist.2)
    | WlzObjectType.WLZ_3D_DOMAINOBJ =>
      let ist := WlzIntersectN [some gM, grdZ, grdY, grdX]
      if ist.2 = WlzErrorNum.WLZ_ERR_NONE then
        match ist.1 with
        | some istObj =>
          match istObj.otype with
          | WlzObjectType.WLZ_2D_DOMAINOBJ =>
            match grdZ, grdY, grdX with
            | some gZ, some gY, some gX =>
              WlzNMSuppress3D
                (WlzMakeMain WlzObjectType.WLZ_2D_DOMAINOBJ istObj.domain
                  gM.values)
                (WlzMakeMain WlzObjectType.WLZ_2D_DOMAINOBJ istObj.domain
                  gZ.values)
                (WlzMakeMain WlzObjectType.WLZ_2D_DOMAINOBJ istObj.domain
                  gY.values)
                (WlzMakeMain WlzObjectType.WLZ_2D_DOMAINOBJ istObj.domain
                  gX.values)
                minThrV
            | _, _, _ => (none, WlzErrorNum.WLZ_ERR_OBJECT_NULL)
          | WlzObjectType.WLZ_EMPTY_OBJ => WlzMakeEmpty
          | _ => (none, WlzErrorNum.WLZ_ERR_OBJECT_TYPE)
        | none => (none, WlzErrorNum.WLZ_ERR_OBJECT_TYPE)
      else (none, ist.2)
    | WlzObjectType.WLZ_EMPTY_OBJ => WlzMakeEmpty

section ScanLemmas

variable (prv cur nxt gYb gXb : Int → Int) (minGM line kol : Int)

variable (prvQ curQ nxtQ gYbQ gXbQ : Int → ℚ) (minGMQ : ℚ)

/-- Closing an interval does not change the direction-value buffer. -/
theorem dst_ite_close (s1 : NMSState) (c : Prop) [Decidable c] :
    (if c then
        { s1 with itvs := s1.itvs ++ [(line, s1.itvLft + kol, s1.itvLen)]
                  itvLen := 0 }
      else s1).dst = s1.dst := by
  split <;> rfl

/-- The integer scan loop never writes the direction buffer at an index that
is at most the incoming cursor `j`, nor beyond `j + cnt`. -/
theorem loopI_dst_stable : ∀ (cnt : Nat) (k x j : Int) (s : NMSState)
    (p : Int), p ≤ j ∨ j + cnt < p →
    (loopI prv cur nxt gYb gXb minGM line kol cnt k x j s).dst p = s.dst p := by
  intro cnt
  induction cnt with
  | zero => intro k x j s p _; rfl
  | succ n ih =>
    intro k x j s p hp
    simp only [loopI]
    rw [ih (k + 1) (x + 1) (j + 1) _ p (by omega)]
    rw [dst_ite_close]
    have hne : p ≠ j + 1 := by omega
    cases hmx : maximalI prv cur nxt (gYb (j + 1)) (gXb (j + 1)) minGM k <;>
      simp [hmx, upd, hne]

/-- The floating scan loop never writes the direction buffer at an index
that is at most the incoming cursor `j`, nor beyond `j + cnt`. -/
theorem loopD_dst_stable : ∀ (cnt : Nat) (k j : Int) (s : NMSState)
    (p : Int), p ≤ j ∨ j + cnt < p →
    (loopD prvQ curQ nxtQ gYbQ gXbQ minGMQ line kol cnt k j s).dst p
      = s.dst p := by
  intro cnt
  induction cnt with
  | zero => intro k j s p _; rfl
  | succ n ih =>
    intro k j s p hp
    simp only [loopD]
    rw [ih (k + 1) (j + 1) _ p (by omega)]
    rw [dst_ite_close]
    have hne : p ≠ j + 1 := by omega
    cases hmx : maximalD prvQ curQ nxtQ (gYbQ (j + 1)) (gXbQ (j + 1))
        minGMQ k <;>
      simp [hmx, upd, hne]

/-- The byte the integer scan loop leaves at interior offset `i` (stored at
buffer index `j + 1 + i`, stencil offset `k + i`) is exactly `byteI` of that
pixel's samples. -/
theorem loopI_dst_get : ∀ (cnt : Nat) (k x j : Int) (s : NMSState) (i : Nat),
    i < cnt →
    (loopI prv cur nxt gYb gXb minGM line kol cnt k x j s).dst (j + 1 + i)
      = byteI prv cur nxt (gYb (j + 1 + i)) (gXb (j + 1 + i)) minGM (k + i) := by
  intro cnt
  induction cnt with
  | zero => intro k x j s i hi; omega
  | succ n ih =>
    intro k x j s i hi
    simp only [loopI]
    cases i with
    | zero =>
      simp only [Nat.cast_zero, add_zero]
      rw [loopI_dst_stable prv cur nxt gYb gXb minGM line kol n
          (k + 1) (x + 1) (j + 1) _ (j + 1) (Or.inl le_rfl)]
      rw [dst_ite_close]
      cases hmx : maximalI prv cur nxt (gYb (j + 1)) (gXb (j + 1)) minGM k <;>
        simp [hmx, upd, byteI]
    | succ m =>
      have h1 : j + 1 + ((m + 1 : Nat) : Int) = (j + 1) + 1 + (m : Int) := by
        push_cast; ring
      have h2 : k + ((m + 1 : Nat) : Int) = (k + 1) + (m : Int) := by
        push_cast; ring
      rw [h1, h2, ih (k + 1) (x + 1) (j + 1) _ m (by omega)]

/-- The byte the floating scan loop leaves at interior offset `i`. -/
theorem loopD_dst_get : ∀ (cnt : Nat) (k j : Int) (s : NMSState) (i : Nat),
    i < cnt →
    (loopD prvQ curQ nxtQ gYbQ gXbQ minGMQ line kol cnt k j s).dst (j + 1 + i)
      = byteD prvQ curQ nxtQ (gYbQ (j + 1 + i)) (gXbQ (j + 1 + i)) minGMQ
          (k + i) := by
  intro cnt
  induction cnt with
  | zero => intro k j s i hi; omega
  | succ n ih =>
    intro k j s i hi
    simp only [loopD]
    cases i with
    | zero =>
      simp only [Nat.cast_zero, add_zero]
      rw [loopD_dst_stable line kol prvQ curQ nxtQ gYbQ gXbQ minGMQ n
          (k + 1) (j + 1) _ (j + 1) (Or.inl le_rfl)]
      rw [dst_ite_close]
      cases hmx : maximalD prvQ curQ nxtQ (gYbQ (j + 1)) (gXbQ (j + 1))
          minGMQ k <;>
        simp [hmx, upd, byteD]
    | succ m =>
      have h1 : j + 1 + ((m + 1 : Nat) : Int) = (j + 1) + 1 + (m : Int) := by
        push_cast; ring
      have h2 : k + ((m + 1 : Nat) : Int) = (k + 1) + (m : Int) := by
        push_cast; ring
      rw [h1, h2, ih (k + 1) (j + 1) _ m (by omega)]

/-- The floating scan loop never touches the interval fields: `itvLen` is
never incremented (`WlzNMSuppress.c:381-384` only stores the direction
byte), so from `itvLen = 0` no interval is ever closed and appended. -/
theorem loopD_itvs_const : ∀ (cnt : Nat) (k j : Int) (s : NMSState),
    s.itvLen = 0 →
    (loopD prvQ curQ nxtQ gYbQ gXbQ minGMQ line kol cnt k j s).itvs = s.itvs ∧
    (loopD prvQ curQ nxtQ gYbQ gXbQ minGMQ line kol cnt k j s).itvLen = 0 := by
  intro cnt
  induction cnt with
  | zero => intro k j s h; exact ⟨rfl, h⟩
  | succ n ih =>
    intro k j s h
    simp only [loopD]
    cases hmx : maximalD prvQ curQ nxtQ (gYbQ (j + 1)) (gXbQ (j + 1))
        minGMQ k <;>
      simp [hmx, h, ih]

end ScanLemmas

/-- Interior-pixel characterization of the integer scanner: the byte stored
at buffer index `i + 1` is `byteI` of that pixel's samples. -/
theorem bufI_dst_interior (grdMBuf : Int → Int → Int) (gYb gXb : Int → Int)
    (dst0 : Int → Nat) (dstLen : Nat) (posX posY orgX orgY minGM : Int)
    (i : Nat) (hi : i < dstLen - 2) :
    (WlzNMSuppress2DBufI grdMBuf gYb gXb dst0 dstLen posX posY orgX orgY
        minGM).1.dst ((i : Int) + 1)
      = byteI (bufRow grdMBuf posY (-1)) (bufRow grdMBuf posY 0)
          (bufRow grdMBuf posY 1) (gYb ((i : Int) + 1)) (gXb ((i : Int) + 1))
          minGM (posX + i) := by
  unfold WlzNMSuppress2DBufI
  have h := loopI_dst_get (bufRow grdMBuf posY (-1)) (bufRow grdMBuf posY 0)
    (bufRow grdMBuf posY 1) gYb gXb minGM (posY + orgY) orgX (dstLen - 2)
    posX (posX + 1) 0
    { dst := upd (upd dst0 0 0) ((dstLen : Int) - 1) 0,
      itvLft := posX + 1, itvLen := 0, itvs := [] } i hi
  simpa [add_comm] using h

/-- Interior-pixel characterization of the floating scanner. -/
theorem bufD_dst_interior (grdMBuf : Int → Int → ℚ) (gYb gXb : Int → ℚ)
    (dst0 : Int → Nat) (dstLen : Nat) (posX posY orgX orgY : Int)
    (minGM : ℚ) (i : Nat) (hi : i < dstLen - 2) :
    (WlzNMSuppress2DBufD grdMBuf gYb gXb dst0 dstLen posX posY orgX orgY
        minGM).1.dst ((i : Int) + 1)
      = byteD (bufRowQ grdMBuf posY (-1)) (bufRowQ grdMBuf posY 0)
          (bufRowQ grdMBuf posY 1) (gYb ((i : Int) + 1)) (gXb ((i : Int) + 1))
          minGM (posX + i) := by
  unfold WlzNMSuppress2DBufD
  have h := loopD_dst_get (posY + orgY) orgX (bufRowQ grdMBuf posY (-1))
    (bufRowQ grdMBuf posY 0) (bufRowQ grdMBuf posY 1) gYb gXb minGM
    (dstLen - 2) posX 0
    { dst := upd (upd dst0 0 0) ((dstLen : Int) - 1) 0,
      itvLft := posX + 1, itvLen := 0, itvs := [] } i hi
  simpa [add_comm] using h

/-- The integer scanner stores `0` at the first buffer cell. -/
theorem bufI_dst_left (grdMBuf : Int → Int → Int) (gYb gXb : Int → Int)
    (dst0 : Int → Nat) (dstLen : Nat) (posX posY orgX orgY minGM : Int) :
    (WlzNMSuppress2DBufI grdMBuf gYb gXb dst0 dstLen posX posY orgX orgY
        minGM).1.dst 0 = 0 := by
  unfold WlzNMSuppress2DBufI
  rw [loopI_dst_stable _ _ _ _ _ _ _ _ _ _ _ _ _ _ (Or.inl le_rfl)]
  simp only [upd]
  split <;> simp

/-- The integer scanner stores `0` at the last buffer cell, and the scan
loop never overwrites it. -/
theorem bufI_dst_right (grdMBuf : Int → Int → Int) (gYb gXb : Int → Int)
    (dst0 : Int → Nat) (dstLen : Nat) (posX posY orgX orgY minGM : Int) :
    (WlzNMSuppress2DBufI grdMBuf gYb gXb dst0 dstLen posX posY orgX orgY
        minGM).1.dst ((dstLen : Int) - 1) = 0 := by
  unfold WlzNMSuppress2DBufI
  rw [loopI_dst_stable _ _ _ _ _ _ _ _ _ _ _ _ _ _ (by omega)]
  simp [upd]

/-- The floating scanner stores `0` at the first buffer cell. -/
theorem bufD_dst_left (grdMBuf : Int → Int → ℚ) (gYb gXb : Int → ℚ)
    (dst0 : Int → Nat) (dstLen : Nat) (posX posY orgX orgY : Int)
    (minGM : ℚ) :
    (WlzNMSuppress2DBufD grdMBuf gYb gXb dst0 dstLen posX posY orgX orgY
        minGM).1.dst 0 = 0 := by
  unfold WlzNMSuppress2DBufD
  rw [loopD_dst_stable _ _ _ _ _ _ _ _ _ _ _ _ _ (Or.inl le_rfl)]
  simp only [upd]
  split <;> simp

/-- The floating scanner stores `0` at the last buffer cell. -/
theorem bufD_dst_right (grdMBuf : Int → Int → ℚ) (gYb gXb : Int → ℚ)
    (dst0 : Int → Nat) (dstLen : Nat) (posX posY orgX orgY : Int)
    (minGM : ℚ) :
    (WlzNMSuppress2DBufD grdMBuf gYb gXb dst0 dstLen posX posY orgX orgY
        minGM).1.dst ((dstLen : Int) - 1) = 0 := by
  unfold WlzNMSuppress2DBufD
  rw [loopD_dst_stable _ _ _ _ _ _ _ _ _ _ _ _ _ (by omega)]
  simp [upd]

/-- Unfolding `byteI` into the gate and strict-positivity conditions of the
integer scanner. -/
theorem byteI_eq_ite (prv cur nxt : Int → Int) (gYv gXv minGM : Int)
    (k : Int) :
    byteI prv cur nxt gYv gXv minGM k =
      (if cur (k + 1) ≠ 0 ∧ minGM < cur (k + 1) ∧
          0 < (interpI prv cur nxt k (cur (k + 1)) gYv gXv
                 (dirCodeI gYv gXv)).1 ∧
          0 < (interpI prv cur nxt k (cur (k + 1)) gYv gXv
                 (dirCodeI gYv gXv)).2
       then dirCodeI gYv gXv ||| 128 else 0) := by
  unfold byteI maximalI
  by_cases hA : cur (k + 1) ≠ 0 ∧ minGM < cur (k + 1) <;>
    by_cases hB : 0 < (interpI prv cur nxt k (cur (k + 1)) gYv gXv
        (dirCodeI gYv gXv)).1 ∧
      0 < (interpI prv cur nxt k (cur (k + 1)) gYv gXv
        (dirCodeI gYv gXv)).2 <;>
    simp [hA, hB]

/-- Unfolding `byteD` into the epsilon-guarded gate and slope conditions of
the floating scanner. -/
theorem byteD_eq_ite (prv cur nxt : Int → ℚ) (gYv gXv minGM : ℚ)
    (k : Int) :
    byteD prv cur nxt gYv gXv minGM k =
      (if DBL_EPSILON < cur (k + 1) * cur (k + 1) ∧ minGM < cur (k + 1) ∧
          DBL_EPSILON < (interpD prv cur nxt k (cur (k + 1)) gYv gXv
                 (dirCodeD gYv gXv)).1 ∧
          DBL_EPSILON < (interpD prv cur nxt k (cur (k + 1)) gYv gXv
                 (dirCodeD gYv gXv)).2
       then dirCodeD gYv gXv ||| 128 else 0) := by
  unfold byteD maximalD
  by_cases hA : DBL_EPSILON < cur (k + 1) * cur (k + 1) ∧
      minGM < cur (k + 1) <;>
    by_cases hB : DBL_EPSILON < (interpD prv cur nxt k (cur (k + 1)) gYv gXv
        (dirCodeD gYv gXv)).1 ∧
      DBL_EPSILON < (interpD prv cur nxt k (cur (k + 1)) gYv gXv
        (dirCodeD gYv gXv)).2 <;>
    simp [hA, hB]

/-- Every interval the integer scan loop appends lies between the column
bound `lo + kol` on the left and the advancing cursor on the right,
provided the incoming state does.  The open interval always ends exactly at
the cursor `x`. -/
theorem loopI_itvs_bound (prv cur nxt gYb gXb : Int → Int)
    (minGM line kol lo : Int) :
    ∀ (cnt : Nat) (k x j : Int) (s : NMSState),
    lo ≤ x →
    (0 < s.itvLen → lo ≤ s.itvLft ∧ s.itvLft + (s.itvLen : Int) = x) →
    (∀ r ∈ s.itvs, lo + kol ≤ r.2.1 ∧ r.2.1 + (r.2.2 : Int) ≤ x + kol) →
    ∀ r ∈ (loopI prv cur nxt gYb gXb minGM line kol cnt k x j s).itvs,
      lo + kol ≤ r.2.1 ∧ r.2.1 + (r.2.2 : Int) ≤ x + cnt + kol := by
  intro cnt
  induction cnt with
  | zero =>
    intro k x j s hx hopen hitvs r hr
    simpa using hitvs r hr
  | succ n ih =>
    intro k x j s hx hopen hitvs
    obtain ⟨d, lft, len, itvs⟩ := s
    dsimp only at hopen hitvs
    have hcast : x + ((n + 1 : Nat) : Int) + kol = x + 1 + (n : Int) + kol := by
      push_cast; ring
    rw [hcast]
    simp only [loopI]
    cases hmx : maximalI prv cur nxt (gYb (j + 1)) (gXb (j + 1)) minGM k with
    | none =>
      dsimp only
      by_cases hlen : 0 < len
      · rw [if_pos ⟨hlen, Or.inr rfl⟩]
        refine ih (k + 1) (x + 1) (j + 1) _ (by omega)
          (fun h0 => absurd h0 (by simp)) ?_
        intro q hq
        simp only [List.mem_append, List.mem_singleton] at hq
        rcases hq with hq | rfl
        · have := hitvs q hq
          exact ⟨this.1, by omega⟩
        · have h1 := hopen hlen
          dsimp only
          omega
      · rw [if_neg (fun hc => hlen hc.1)]
        refine ih (k + 1) (x + 1) (j + 1) _ (by omega)
          (fun h0 => absurd h0 hlen) ?_
        intro q hq
        have := hitvs q hq
        exact ⟨this.1, by omega⟩
    | some c =>
      dsimp only
      by_cases hcl : n = 0
      · rw [if_pos ⟨by omega, Or.inl hcl⟩]
        refine ih (k + 1) (x + 1) (j + 1) _ (by omega)
          (fun h0 => absurd h0 (by simp)) ?_
        intro q hq
        simp only [List.mem_append, List.mem_singleton] at hq
        rcases hq with hq | rfl
        · have := hitvs q hq
          exact ⟨this.1, by omega⟩
        · dsimp only
          by_cases hl0 : len = 0
          · rw [if_pos hl0]
            omega
          · rw [if_neg hl0]
            have h1 := hopen (by omega)
            omega
      · rw [if_neg (by
          intro hc
          rcases hc.2 with h | h
          · exact hcl h
          · exact Option.some_ne_none c h)]
        refine ih (k + 1) (x + 1) (j + 1) _ (by omega) ?_ ?_
        · intro h0
          dsimp only
          by_cases hl0 : len = 0
          · rw [if_pos hl0]
            refine ⟨hx, by simp [hl0]⟩
          · rw [if_neg hl0]
            have h1 := hopen (by omega)
            refine ⟨h1.1, by push_cast; omega⟩
        · intro q hq
          have := hitvs q hq
          exact ⟨this.1, by omega⟩

/-- The floating scanner appends no interval at all: its interval length is
never incremented. -/
theorem bufD_itvs_nil (grdMBuf : Int → Int → ℚ) (gYb gXb : Int → ℚ)
    (dst0 : Int → Nat) (dstLen : Nat) (posX posY orgX orgY : Int)
    (minGM : ℚ) :
    (WlzNMSuppress2DBufD grdMBuf gYb gXb dst0 dstLen posX posY orgX orgY
        minGM).1.itvs = [] := by
  unfold WlzNMSuppress2DBufD
  exact (loopD_itvs_const (posY + orgY) orgX (bufRowQ grdMBuf posY (-1))
    (bufRowQ grdMBuf posY 0) (bufRowQ grdMBuf posY 1) gYb gXb minGM
    (dstLen - 2) posX 0 _ rfl).1

/-- The two direction-code computations agree on integer-valued inputs. -/
theorem dirCodeD_intCast (gY gX : Int) :
    dirCodeD (gY : ℚ) (gX : ℚ) = dirCodeI gY gX := by
  unfold dirCodeD dirCodeI
  have h1 : (0 ≤ (gY : ℚ)) ↔ (0 ≤ gY) := by exact_mod_cast Iff.rfl
  have h2 : (0 ≤ (gX : ℚ)) ↔ (0 ≤ gX) := by exact_mod_cast Iff.rfl
  have h3 : ((gX : ℚ) * gX ≤ (gY : ℚ) * gY) ↔ (gX * gX ≤ gY * gY) := by
    exact_mod_cast Iff.rfl
  simp only [h1, h2, h3]

/-- The integer direction code is one of the eight octant codes. -/
theorem dirCodeI_lt_8 (gY gX : Int) : dirCodeI gY gX < 8 := by
  unfold dirCodeI
  by_cases h1 : 0 ≤ gY <;> by_cases h2 : 0 ≤ gX <;>
    by_cases h3 : gX * gX ≤ gY * gY <;> simp [h1, h2, h3, dTable]

/-- The floating direction code is one of the eight octant codes. -/
theorem dirCodeD_lt_8 (gY gX : ℚ) : dirCodeD gY gX < 8 := by
  unfold dirCodeD
  by_cases h1 : 0 ≤ gY <;> by_cases h2 : 0 ≤ gX <;>
    by_cases h3 : gX * gX ≤ gY * gY <;> simp [h1, h2, h3, dTable]

/-- A retained byte `code | 0x80` with `code < 8` lies in `128..135` (and
in particular is non-zero). -/
theorem lor128_range (c : Nat) (h : c < 8) :
    128 ≤ c ||| 128 ∧ c ||| 128 ≤ 135 := by
  interval_cases c <;> decide

/-- Cells outside the written range `0..dstLen-1` keep their initial
contents in the integer scanner. -/
theorem bufI_dst_untouched (grdMBuf : Int → Int → Int) (gYb gXb : Int → Int)
    (dst0 : Int → Nat) (dstLen : Nat) (posX posY orgX orgY minGM : Int)
    (p : Int) (h0 : p ≠ 0) (h1 : p ≠ (dstLen : Int) - 1)
    (hout : p < 1 ∨ (dstLen : Int) - 2 < p) :
    (WlzNMSuppress2DBufI grdMBuf gYb gXb dst0 dstLen posX posY orgX orgY
        minGM).1.dst p = dst0 p := by
  unfold WlzNMSuppress2DBufI
  rw [loopI_dst_stable _ _ _ _ _ _ _ _ _ _ _ _ _ _ (by omega)]
  simp [upd, h0, h1]

/-- Cells outside the written range `0..dstLen-1` keep their initial
contents in the floating scanner. -/
theorem bufD_dst_untouched (grdMBuf : Int → Int → ℚ) (gYb gXb : Int → ℚ)
    (dst0 : Int → Nat) (dstLen : Nat) (posX posY orgX orgY : Int)
    (minGM : ℚ) (p : Int) (h0 : p ≠ 0) (h1 : p ≠ (dstLen : Int) - 1)
    (hout : p < 1 ∨ (dstLen : Int) - 2 < p) :
    (WlzNMSuppress2DBufD grdMBuf gYb gXb dst0 dstLen posX posY orgX orgY
        minGM).1.dst p = dst0 p := by
  unfold WlzNMSuppress2DBufD
  rw [loopD_dst_stable _ _ _ _ _ _ _ _ _ _ _ _ _ (by omega)]
  simp [upd, h0, h1]

/-- Lowering the threshold preserves a non-zero integer-scanner byte: the
threshold only occurs in the gate `gM > minGM`. -/
theorem byteI_mono (prv cur nxt : Int → Int) (gYv gXv m1 m2 : Int) (k : Int)
    (h12 : m1 ≤ m2) (hne : byteI prv cur nxt gYv gXv m2 k ≠ 0) :
    byteI prv cur nxt gYv gXv m1 k = byteI prv cur nxt gYv gXv m2 k := by
  rw [byteI_eq_ite] at hne ⊢
  rw [byteI_eq_ite]
  by_cases hc2 : cur (k + 1) ≠ 0 ∧ m2 < cur (k + 1) ∧
      0 < (interpI prv cur nxt k (cur (k + 1)) gYv gXv
        (dirCodeI gYv gXv)).1 ∧
      0 < (interpI prv cur nxt k (cur (k + 1)) gYv gXv
        (dirCodeI gYv gXv)).2
  · have hc1 : cur (k + 1) ≠ 0 ∧ m1 < cur (k + 1) ∧
        0 < (interpI prv cur nxt k (cur (k + 1)) gYv gXv
          (dirCodeI gYv gXv)).1 ∧
        0 < (interpI prv cur nxt k (cur (k + 1)) gYv gXv
          (dirCodeI gYv gXv)).2 :=
      ⟨hc2.1, lt_of_le_of_lt h12 hc2.2.1, hc2.2.2⟩
    rw [if_pos hc1, if_pos hc2]
  · rw [if_neg hc2] at hne
    exact absurd rfl hne

/-- Lowering the threshold preserves a non-zero floating-scanner byte. -/
theorem byteD_mono (prv cur nxt : Int → ℚ) (gYv gXv m1 m2 : ℚ) (k : Int)
    (h12 : m1 ≤ m2) (hne : byteD prv cur nxt gYv gXv m2 k ≠ 0) :
    byteD prv cur nxt gYv gXv m1 k = byteD prv cur nxt gYv gXv m2 k := by
  rw [byteD_eq_ite] at hne ⊢
  rw [byteD_eq_ite]
  by_cases hc2 : DBL_EPSILON < cur (k + 1) * cur (k + 1) ∧
      m2 < cur (k + 1) ∧
      DBL_EPSILON < (interpD prv cur nxt k (cur (k + 1)) gYv gXv
        (dirCodeD gYv gXv)).1 ∧
      DBL_EPSILON < (interpD prv cur nxt k (cur (k + 1)) gYv gXv
        (dirCodeD gYv gXv)).2
  · have hc1 : DBL_EPSILON < cur (k + 1) * cur (k + 1) ∧
        m1 < cur (k + 1) ∧
        DBL_EPSILON < (interpD prv cur nxt k (cur (k + 1)) gYv gXv
          (dirCodeD gYv gXv)).1 ∧
        DBL_EPSILON < (interpD prv cur nxt k (cur (k + 1)) gYv gXv
          (dirCodeD gYv gXv)).2 :=
      ⟨hc2.1, lt_of_le_of_lt h12 hc2.2.1, hc2.2.2⟩
    rw [if_pos hc1, if_pos hc2]
  · rw [if_neg hc2] at hne
    exact absurd rfl hne

/-- The integer interpolation is the truncating division of the shared
numerators by `gM`. -/
theorem interpI_eq_tdiv (prv cur nxt : Int → Int) (k gM gY gX : Int)
    (c : Nat) :
    interpI prv cur nxt k gM gY gX c =
      ((interpNum prv cur nxt k gM gY gX c).1.tdiv gM,
       (interpNum prv cur nxt k gM gY gX c).2.tdiv gM) := by
  rcases c with _ | _ | _ | _ | _ | _ | _ | _ | n <;>
    simp [interpI, interpNum, Int.zero_tdiv]

/-- On integer-valued inputs the floating interpolation is the exact
rational division of the shared numerators by `gM`. -/
theorem interpD_cast (prv cur nxt : Int → Int) (k gM gY gX : Int)
    (c : Nat) :
    interpD (fun p => (prv p : ℚ)) (fun p => (cur p : ℚ))
        (fun p => (nxt p : ℚ)) k (gM : ℚ) (gY : ℚ) (gX : ℚ) c =
      (((interpNum prv cur nxt k gM gY gX c).1 : ℚ) / (gM : ℚ),
       ((interpNum prv cur nxt k gM gY gX c).2 : ℚ) / (gM : ℚ)) := by
  rcases c with _ | _ | _ | _ | _ | _ | _ | _ | n <;>
    refine Prod.ext ?_ ?_ <;>
    simp only [interpD, interpNum] <;>
    (push_cast; ring)

/-- A strictly positive truncating quotient forces the exact rational
quotient to be at least one. -/
theorem one_le_cast_div_of_tdiv_pos (a b : Int) (h : 0 < a.tdiv b) :
    (1 : ℚ) ≤ (a : ℚ) / (b : ℚ) := by
  have hb : b ≠ 0 := by
    rintro rfl
    rw [Int.tdiv_zero] at h
    exact absurd h (lt_irrefl 0)
  rcases lt_or_gt_of_ne hb with hbneg | hbpos
  · have ha : a < 0 := by
      by_contra hge
      push_neg at hge
      have := Int.tdiv_nonpos hge (le_of_lt hbneg)
      omega
    have hpos : 0 < (-a).tdiv (-b) := by
      rw [Int.neg_tdiv, Int.tdiv_neg]
      omega
    have hge : -b ≤ -a := by
      by_contra hlt
      push_neg at hlt
      have := Int.tdiv_eq_zero_of_lt (by omega : (0 : Int) ≤ -a) hlt
      omega
    have heq : (a : ℚ) / (b : ℚ) = ((-a : Int) : ℚ) / ((-b : Int) : ℚ) := by
      push_cast
      rw [neg_div_neg_eq]
    rw [heq, one_le_div (by exact_mod_cast (by omega : (0 : Int) < -b))]
    exact_mod_cast hge
  · have ha : 0 ≤ a := by
      by_contra hneg
      push_neg at hneg
      have h2 : 0 ≤ (-a).tdiv b := Int.tdiv_nonneg (by omega) (le_of_lt hbpos)
      rw [Int.neg_tdiv] at h2
      omega
    have hge : b ≤ a := by
      by_contra hlt
      push_neg at hlt
      have := Int.tdiv_eq_zero_of_lt ha hlt
      omega
    rw [one_le_div (by exact_mod_cast hbpos)]
    exact_mod_cast hge

/-- A strictly positive truncating quotient exceeds `DBL_EPSILON` as an
exact rational quotient. -/
theorem eps_lt_cast_div_of_tdiv_pos (a b : Int) (h : 0 < a.tdiv b) :
    DBL_EPSILON < (a : ℚ) / (b : ℚ) :=
  lt_of_lt_of_le (by norm_num [DBL_EPSILON])
    (one_le_cast_div_of_tdiv_pos a b h)

/-- A pixel the integer scanner finds maximal is found maximal with the
same direction code by the floating scanner on the cast inputs. -/
theorem maximalD_cast (prv cur nxt : Int → Int) (gYv gXv minGM : Int)
    (k : Int) (c : Nat)
    (h : maximalI prv cur nxt gYv gXv minGM k = some c) :
    maximalD (fun p => (prv p : ℚ)) (fun p => (cur p : ℚ))
      (fun p => (nxt p : ℚ)) (gYv : ℚ) (gXv : ℚ) (minGM : ℚ) k = some c := by
  simp only [maximalI] at h
  by_cases hA : cur (k + 1) ≠ 0 ∧ minGM < cur (k + 1)
  · rw [if_pos hA] at h
    by_cases hB : 0 < (interpI prv cur nxt k (cur (k + 1)) gYv gXv
        (dirCodeI gYv gXv)).1 ∧
      0 < (interpI prv cur nxt k (cur (k + 1)) gYv gXv
        (dirCodeI gYv gXv)).2
    · rw [if_pos hB] at h
      rw [interpI_eq_tdiv] at hB
      simp only [maximalD, dirCodeD_intCast, interpD_cast]
      rw [if_pos ?gate, if_pos ?slopes]
      case gate =>
        constructor
        · have h1 : (1 : Int) ≤ cur (k + 1) * cur (k + 1) := by
            rcases hA.1.lt_or_lt with hlt | hlt
            · nlinarith
            · nlinarith
          calc DBL_EPSILON < 1 := by norm_num [DBL_EPSILON]
            _ ≤ (cur (k + 1) : ℚ) * (cur (k + 1) : ℚ) := by exact_mod_cast h1
        · exact_mod_cast hA.2
      case slopes =>
        exact ⟨eps_lt_cast_div_of_tdiv_pos _ _ hB.1,
          eps_lt_cast_div_of_tdiv_pos _ _ hB.2⟩
      exact h
    · rw [if_neg hB] at h
      exact absurd h (by simp)
  · rw [if_neg hA] at h
    exact absurd h (by simp)

/-- A non-zero byte of the integer scanner is reproduced exactly by the
floating scanner on the cast inputs. -/
theorem byteD_cast_of_byteI_ne (prv cur nxt : Int → Int)
    (gYv gXv minGM : Int) (k : Int)
    (hne : byteI prv cur nxt gYv gXv minGM k ≠ 0) :
    byteD (fun p => (prv p : ℚ)) (fun p => (cur p : ℚ))
        (fun p => (nxt p : ℚ)) (gYv : ℚ) (gXv : ℚ) (minGM : ℚ) k =
      byteI prv cur nxt gYv gXv minGM k := by
  unfold byteI at hne ⊢
  cases hmI : maximalI prv cur nxt gYv gXv minGM k with
  | none => rw [hmI] at hne; exact absurd rfl hne
  | some c =>
    unfold byteD
    rw [maximalD_cast prv cur nxt gYv gXv minGM k c hmI]

/-- `dirCodeD` on the concrete derivatives `(0, 1)` used by the example
rows (a positive-horizontal gradient): octant code `7`. -/
theorem dirCodeD_01 : dirCodeD (0 : ℚ) 1 = 7 := by
  unfold dirCodeD
  norm_num
  decide

/-- The direction value stored at interior pixel `1` of the example row
(single peak of magnitude 4 at the centre, `gY = 0`, `gX = 1`, any
threshold below 4) by the floating scanner. -/
theorem exampleD_dst_one (t : ℚ) (ht : t < 4) :
    (WlzNMSuppress2DBufD (fun r p => if r = 1 ∧ p = 1 then 4 else 0)
      (fun _ => 0) (fun _ => 1) (fun _ => 7) 3 0 1 10 20 t).1.dst 1
      = 135 := by
  have h := bufD_dst_interior (fun r p => if r = 1 ∧ p = 1 then 4 else 0)
    (fun _ => 0) (fun _ => 1) (fun _ => 7) 3 0 1 10 20 t 0 (by decide)
  norm_num at h
  rw [h, byteD_eq_ite, dirCodeD_01]
  norm_num [interpD, bufRowQ, DBL_EPSILON, ht]
  decide

/-- C1: in both scanner variants, an interior pixel of a loaded output row
is marked retained — its direction byte is `dCode | 0x80` — exactly when
its gradient magnitude `gM` is non-zero (floating path: `gM * gM` exceeds
`DBL_EPSILON`), `gM` is strictly greater than the converted
minimum-gradient threshold, and both interpolated side slopes are strictly
positive (floating path: strictly greater than the same `DBL_EPSILON`);
otherwise the direction byte is `0`. -/
theorem C1_interior_retention_iff :
    (∀ (grdMBuf : Int → Int → Int) (gYb gXb : Int → Int) (dst0 : Int → Nat)
        (dstLen : Nat) (posX posY orgX orgY minGM : Int) (i : Nat),
        i < dstLen - 2 →
        (WlzNMSuppress2DBufI grdMBuf gYb gXb dst0 dstLen posX posY orgX orgY
            minGM).1.dst ((i : Int) + 1) =
          (if bufRow grdMBuf posY 0 (posX + (i : Int) + 1) ≠ 0 ∧
              minGM < bufRow grdMBuf posY 0 (posX + (i : Int) + 1) ∧
              0 < (interpI (bufRow grdMBuf posY (-1)) (bufRow grdMBuf posY 0)
                    (bufRow grdMBuf posY 1) (posX + (i : Int))
                    (bufRow grdMBuf posY 0 (posX + (i : Int) + 1))
                    (gYb ((i : Int) + 1)) (gXb ((i : Int) + 1))
                    (dirCodeI (gYb ((i : Int) + 1)) (gXb ((i : Int) + 1)))).1 ∧
              0 < (interpI (bufRow grdMBuf posY (-1)) (bufRow grdMBuf posY 0)
                    (bufRow grdMBuf posY 1) (posX + (i : Int))
                    (bufRow grdMBuf posY 0 (posX + (i : Int) + 1))
                    (gYb ((i : Int) + 1)) (gXb ((i : Int) + 1))
                    (dirCodeI (gYb ((i : Int) + 1)) (gXb ((i : Int) + 1)))).2
           then dirCodeI (gYb ((i : Int) + 1)) (gXb ((i : Int) + 1)) ||| 128
           else 0)) ∧
    (∀ (grdMBuf : Int → Int → ℚ) (gYb gXb : Int → ℚ) (dst0 : Int → Nat)
        (dstLen : Nat) (posX posY orgX orgY : Int) (minGM : ℚ) (i : Nat),
        i < dstLen - 2 →
        (WlzNMSuppress2DBufD grdMBuf gYb gXb dst0 dstLen posX posY orgX orgY
            minGM).1.dst ((i : Int) + 1) =
          (if DBL_EPSILON < bufRowQ grdMBuf posY 0 (posX + (i : Int) + 1) *
                bufRowQ grdMBuf posY 0 (posX + (i : Int) + 1) ∧
              minGM < bufRowQ grdMBuf posY 0 (posX + (i : Int) + 1) ∧
              DBL_EPSILON <
                (interpD (bufRowQ grdMBuf posY (-1)) (bufRowQ grdMBuf posY 0)
                  (bufRowQ grdMBuf posY 1) (posX + (i : Int))
                  (bufRowQ grdMBuf posY 0 (posX + (i : Int) + 1))
                  (gYb ((i : Int) + 1)) (gXb ((i : Int) + 1))
                  (dirCodeD (gYb ((i : Int) + 1)) (gXb ((i : Int) + 1)))).1 ∧
              DBL_EPSILON <
                (interpD (bufRowQ grdMBuf posY (-1)) (bufRowQ grdMBuf posY 0)
                  (bufRowQ grdMBuf posY 1) (posX + (i : Int))
                  (bufRowQ grdMBuf posY 0 (posX + (i : Int) + 1))
                  (gYb ((i : Int) + 1)) (gXb ((i : Int) + 1))
                  (dirCodeD (gYb ((i : Int) + 1)) (gXb ((i : Int) + 1)))).2
           then dirCodeD (gYb ((i : Int) + 1)) (gXb ((i : Int) + 1)) ||| 128
           else 0)) := by
  constructor
  · intro grdMBuf gYb gXb dst0 dstLen posX posY orgX orgY minGM i hi
    rw [bufI_dst_interior grdMBuf gYb gXb dst0 dstLen posX posY orgX orgY
        minGM i hi, byteI_eq_ite]
  · intro grdMBuf gYb gXb dst0 dstLen posX posY orgX orgY minGM i hi
    rw [bufD_dst_interior grdMBuf gYb gXb dst0 dstLen posX posY orgX orgY
        minGM i hi, byteD_eq_ite]

/-- Witness for C1: on a row of length 3 with a single magnitude peak 4 at
the centre, derivatives `gY = 0`, `gX = 1` and threshold 0, both variants
retain the interior pixel with byte `135 = 7 | 0x80`. -/
theorem C1_interior_retention_iff_witness :
    (WlzNMSuppress2DBufI (fun r p => if r = 1 ∧ p = 1 then 4 else 0)
      (fun _ => 0) (fun _ => 1) (fun _ => 7) 3 0 1 10 20 0).1.dst 1 = 135 ∧
    (WlzNMSuppress2DBufD (fun r p => if r = 1 ∧ p = 1 then 4 else 0)
      (fun _ => 0) (fun _ => 1) (fun _ => 7) 3 0 1 10 20 0).1.dst 1
      = 135 := by
  constructor
  · have h := C1_interior_retention_iff.1
      (fun r p => if r = 1 ∧ p = 1 then 4 else 0)
      (fun _ => 0) (fun _ => 1) (fun _ => 7) 3 0 1 10 20 0 0 (by decide)
    norm_num at h
    rw [h]
    decide
  · have h := C1_interior_retention_iff.2
      (fun r p => if r = 1 ∧ p = 1 then 4 else 0)
      (fun _ => 0) (fun _ => 1) (fun _ => 7) 3 0 1 10 20 0 0 (by decide)
    norm_num at h
    rw [h, dirCodeD_01]
    norm_num [interpD, bufRowQ, DBL_EPSILON]
    decide

/-- C3: for every pixel passing the magnitude/threshold test, the direction
code in both scanner variants equals `dTable[b]` with
`b = (dY >= 0) * 4 + (dX >= 0) * 2 + (if dY*dY >= dX*dX then 1 else 0)` and
`dTable = {3, 2, 0, 1, 4, 5, 7, 6}` (stated for every derivative pair — the
code computed by either variant always has this form); the code is always
in `0..7`, hence every non-zero (retained) direction byte written to an
interior cell lies in `128..135`. -/
theorem C3_direction_code :
    (∀ gY gX : Int,
        dirCodeI gY gX =
          dTable.getD ((if 0 ≤ gY then 1 else 0) * 4 +
            (if 0 ≤ gX then 1 else 0) * 2 +
            (if gX * gX ≤ gY * gY then 1 else 0)) 0 ∧
        dirCodeI gY gX < 8) ∧
    (∀ gY gX : ℚ,
        dirCodeD gY gX =
          dTable.getD ((if 0 ≤ gY then 1 else 0) * 4 +
            (if 0 ≤ gX then 1 else 0) * 2 +
            (if gX * gX ≤ gY * gY then 1 else 0)) 0 ∧
        dirCodeD gY gX < 8) ∧
    (∀ (grdMBuf : Int → Int → Int) (gYb gXb : Int → Int) (dst0 : Int → Nat)
        (dstLen : Nat) (posX posY orgX orgY minGM : Int) (i : Nat),
        i < dstLen - 2 →
        (WlzNMSuppress2DBufI grdMBuf gYb gXb dst0 dstLen posX posY orgX orgY
            minGM).1.dst ((i : Int) + 1) ≠ 0 →
        128 ≤ (WlzNMSuppress2DBufI grdMBuf gYb gXb dst0 dstLen posX posY
            orgX orgY minGM).1.dst ((i : Int) + 1) ∧
          (WlzNMSuppress2DBufI grdMBuf gYb gXb dst0 dstLen posX posY
            orgX orgY minGM).1.dst ((i : Int) + 1) ≤ 135) ∧
    (∀ (grdMBuf : Int → Int → ℚ) (gYb gXb : Int → ℚ) (dst0 : Int → Nat)
        (dstLen : Nat) (posX posY orgX orgY : Int) (minGM : ℚ) (i : Nat),
        i < dstLen - 2 →
        (WlzNMSuppress2DBufD grdMBuf gYb gXb dst0 dstLen posX posY orgX orgY
            minGM).1.dst ((i : Int) + 1) ≠ 0 →
        128 ≤ (WlzNMSuppress2DBufD grdMBuf gYb gXb dst0 dstLen posX posY
            orgX orgY minGM).1.dst ((i : Int) + 1) ∧
          (WlzNMSuppress2DBufD grdMBuf gYb gXb dst0 dstLen posX posY
            orgX orgY minGM).1.dst ((i : Int) + 1) ≤ 135) := by
  refine ⟨?_, ?_, ?_, ?_⟩
  · intro gY gX
    unfold dirCodeI
    by_cases h1 : 0 ≤ gY <;> by_cases h2 : 0 ≤ gX <;>
      by_cases h3 : gX * gX ≤ gY * gY <;>
      simp [h1, h2, h3, dTable]
  · intro gY gX
    unfold dirCodeD
    by_cases h1 : 0 ≤ gY <;> by_cases h2 : 0 ≤ gX <;>
      by_cases h3 : gX * gX ≤ gY * gY <;>
      simp [h1, h2, h3, dTable]
  · intro grdMBuf gYb gXb dst0 dstLen posX posY orgX orgY minGM i hi hne
    rw [bufI_dst_interior grdMBuf gYb gXb dst0 dstLen posX posY orgX orgY
        minGM i hi, byteI_eq_ite] at hne ⊢
    split_ifs at hne ⊢ with hcond
    · exact lor128_range _ (dirCodeI_lt_8 _ _)
    · exact absurd rfl hne
  · intro grdMBuf gYb gXb dst0 dstLen posX posY orgX orgY minGM i hi hne
    rw [bufD_dst_interior grdMBuf gYb gXb dst0 dstLen posX posY orgX orgY
        minGM i hi, byteD_eq_ite] at hne ⊢
    split_ifs at hne ⊢ with hcond
    · exact lor128_range _ (dirCodeD_lt_8 _ _)
    · exact absurd rfl hne

/-- Witness for C3: both variants' retained byte on the example peak row
lies in `128..135`. -/
theorem C3_direction_code_witness :
    (128 ≤ (WlzNMSuppress2DBufI (fun r p => if r = 1 ∧ p = 1 then 4 else 0)
        (fun _ => 0) (fun _ => 1) (fun _ => 7) 3 0 1 10 20 0).1.dst 1 ∧
      (WlzNMSuppress2DBufI (fun r p => if r = 1 ∧ p = 1 then 4 else 0)
        (fun _ => 0) (fun _ => 1) (fun _ => 7) 3 0 1 10 20 0).1.dst 1
        ≤ 135) ∧
    (128 ≤ (WlzNMSuppress2DBufD (fun r p => if r = 1 ∧ p = 1 then 4 else 0)
        (fun _ => 0) (fun _ => 1) (fun _ => 7) 3 0 1 10 20 0).1.dst 1 ∧
      (WlzNMSuppress2DBufD (fun r p => if r = 1 ∧ p = 1 then 4 else 0)
        (fun _ => 0) (fun _ => 1) (fun _ => 7) 3 0 1 10 20 0).1.dst 1
        ≤ 135) := by
  have h3 := C3_direction_code.2.2.1
    (fun r p => if r = 1 ∧ p = 1 then 4 else 0)
    (fun _ => 0) (fun _ => 1) (fun _ => 7) 3 0 1 10 20 0 0 (by decide)
    (by decide)
  have h4 := C3_direction_code.2.2.2
    (fun r p => if r = 1 ∧ p = 1 then 4 else 0)
    (fun _ => 0) (fun _ => 1) (fun _ => 7) 3 0 1 10 20 0 0 (by decide)
    (by norm_num [exampleD_dst_one 0 (by norm_num)])
  norm_num at h3 h4
  exact ⟨h3, h4⟩

/-- C4: in both scanner variants the first and the last column of every
output row get direction byte `0`, and no appended run ever covers either
of them (runs lie strictly between the row's first column
`posX + orgX` and last column `posX + dstLen - 1 + orgX`), regardless of
the gradient, derivative and threshold values. -/
theorem C4_boundary_rejection :
    (∀ (grdMBuf : Int → Int → Int) (gYb gXb : Int → Int) (dst0 : Int → Nat)
        (dstLen : Nat) (posX posY orgX orgY minGM : Int),
        (WlzNMSuppress2DBufI grdMBuf gYb gXb dst0 dstLen posX posY orgX orgY
            minGM).1.dst 0 = 0 ∧
        (WlzNMSuppress2DBufI grdMBuf gYb gXb dst0 dstLen posX posY orgX orgY
            minGM).1.dst ((dstLen : Int) - 1) = 0 ∧
        (∀ r ∈ (WlzNMSuppress2DBufI grdMBuf gYb gXb dst0 dstLen posX posY
            orgX orgY minGM).1.itvs,
          posX + orgX < r.2.1 ∧
          r.2.1 + (r.2.2 : Int) - 1 < posX + (dstLen : Int) - 1 + orgX)) ∧
    (∀ (grdMBuf : Int → Int → ℚ) (gYb gXb : Int → ℚ) (dst0 : Int → Nat)
        (dstLen : Nat) (posX posY orgX orgY : Int) (minGM : ℚ),
        (WlzNMSuppress2DBufD grdMBuf gYb gXb dst0 dstLen posX posY orgX orgY
            minGM).1.dst 0 = 0 ∧
        (WlzNMSuppress2DBufD grdMBuf gYb gXb dst0 dstLen posX posY orgX orgY
            minGM).1.dst ((dstLen : Int) - 1) = 0 ∧
        (∀ r ∈ (WlzNMSuppress2DBufD grdMBuf gYb gXb dst0 dstLen posX posY
            orgX orgY minGM).1.itvs,
          posX + orgX < r.2.1 ∧
          r.2.1 + (r.2.2 : Int) - 1 < posX + (dstLen : Int) - 1 + orgX)) := by
  constructor
  · intro grdMBuf gYb gXb dst0 dstLen posX posY orgX orgY minGM
    refine ⟨bufI_dst_left grdMBuf gYb gXb dst0 dstLen posX posY orgX orgY
        minGM,
      bufI_dst_right grdMBuf gYb gXb dst0 dstLen posX posY orgX orgY minGM,
      ?_⟩
    intro r hr
    by_cases hsmall : dstLen ≤ 2
    · exfalso
      have hcnt : dstLen - 2 = 0 := by omega
      unfold WlzNMSuppress2DBufI at hr
      rw [hcnt] at hr
      simp [loopI] at hr
    · unfold WlzNMSuppress2DBufI at hr
      have hb := loopI_itvs_bound (bufRow grdMBuf posY (-1))
        (bufRow grdMBuf posY 0) (bufRow grdMBuf posY 1) gYb gXb minGM
        (posY + orgY) orgX (posX + 1) (dstLen - 2) posX (posX + 1) 0
        { dst := upd (upd dst0 0 0) ((dstLen : Int) - 1) 0,
          itvLft := posX + 1, itvLen := 0, itvs := [] }
        le_rfl (fun h0 => absurd h0 (by simp)) (by simp) r hr
      omega
  · intro grdMBuf gYb gXb dst0 dstLen posX posY orgX orgY minGM
    refine ⟨bufD_dst_left grdMBuf gYb gXb dst0 dstLen posX posY orgX orgY
        minGM,
      bufD_dst_right grdMBuf gYb gXb dst0 dstLen posX posY orgX orgY minGM,
      ?_⟩
    intro r hr
    rw [bufD_itvs_nil grdMBuf gYb gXb dst0 dstLen posX posY orgX orgY
        minGM] at hr
    simp at hr

/-- Witness for C4: on a full ridge row of length 6 the integer scanner
appends the single run `(1, 1, 4)` covering only interior columns `1..4`,
and both variants zero the boundary cells `0` and `5`. -/
theorem C4_boundary_rejection_witness :
    (WlzNMSuppress2DBufI (fun r _ => if r = 1 then 4 else 0) (fun _ => 1)
      (fun _ => 0) (fun _ => 7) 6 0 1 0 0 0).1.dst 0 = 0 ∧
    (WlzNMSuppress2DBufI (fun r _ => if r = 1 then 4 else 0) (fun _ => 1)
      (fun _ => 0) (fun _ => 7) 6 0 1 0 0 0).1.dst 5 = 0 ∧
    ((0 : Int) + 0 < 1 ∧ (1 : Int) + 4 - 1 < 0 + 6 - 1 + 0) ∧
    (WlzNMSuppress2DBufD (fun r _ => if r = 1 then (4:ℚ) else 0)
      (fun _ => 1) (fun _ => 0) (fun _ => 7) 6 0 1 0 0 0).1.dst 0 = 0 := by
  have hI := C4_boundary_rejection.1 (fun r _ => if r = 1 then 4 else 0)
    (fun _ => 1) (fun _ => 0) (fun _ => 7) 6 0 1 0 0 0
  have hD := C4_boundary_rejection.2 (fun r _ => if r = 1 then (4:ℚ) else 0)
    (fun _ => 1) (fun _ => 0) (fun _ => 7) 6 0 1 0 0 0
  have hrun := hI.2.2 (1, 1, 4) (by decide)
  refine ⟨hI.1, ?_, ?_, hD.1⟩
  · have := hI.2.1
    norm_num at this
    exact this
  · exact ⟨hrun.1, hrun.2⟩

/-- C10: a row whose given interval length is 1 or 2 has no interior
pixels: both variants only zero the boundary cells, append no run and
return `WLZ_ERR_NONE`, regardless of the gradient and threshold values. -/
theorem C10_short_rows :
    (∀ (grdMBuf : Int → Int → Int) (gYb gXb : Int → Int) (dst0 : Int → Nat)
        (dstLen : Nat) (posX posY orgX orgY minGM : Int),
        dstLen = 1 ∨ dstLen = 2 →
        (WlzNMSuppress2DBufI grdMBuf gYb gXb dst0 dstLen posX posY orgX orgY
            minGM).1.itvs = [] ∧
        (WlzNMSuppress2DBufI grdMBuf gYb gXb dst0 dstLen posX posY orgX orgY
            minGM).2 = WlzErrorNum.WLZ_ERR_NONE ∧
        (∀ p : Int, (WlzNMSuppress2DBufI grdMBuf gYb gXb dst0 dstLen posX
            posY orgX orgY minGM).1.dst p =
          if p = 0 ∨ p = (dstLen : Int) - 1 then 0 else dst0 p)) ∧
    (∀ (grdMBuf : Int → Int → ℚ) (gYb gXb : Int → ℚ) (dst0 : Int → Nat)
        (dstLen : Nat) (posX posY orgX orgY : Int) (minGM : ℚ),
        dstLen = 1 ∨ dstLen = 2 →
        (WlzNMSuppress2DBufD grdMBuf gYb gXb dst0 dstLen posX posY orgX orgY
            minGM).1.itvs = [] ∧
        (WlzNMSuppress2DBufD grdMBuf gYb gXb dst0 dstLen posX posY orgX orgY
            minGM).2 = WlzErrorNum.WLZ_ERR_NONE ∧
        (∀ p : Int, (WlzNMSuppress2DBufD grdMBuf gYb gXb dst0 dstLen posX
            posY orgX orgY minGM).1.dst p =
          if p = 0 ∨ p = (dstLen : Int) - 1 then 0 else dst0 p)) := by
  constructor
  · intro grdMBuf gYb gXb dst0 dstLen posX posY orgX orgY minGM h
    have hcnt : dstLen - 2 = 0 := by omega
    unfold WlzNMSuppress2DBufI
    rw [hcnt]
    refine ⟨rfl, rfl, ?_⟩
    intro p
    simp only [loopI, upd]
    by_cases h0 : p = 0 <;> by_cases h1 : p = (dstLen : Int) - 1 <;>
      simp [h0, h1]
  · intro grdMBuf gYb gXb dst0 dstLen posX posY orgX orgY minGM h
    have hcnt : dstLen - 2 = 0 := by omega
    unfold WlzNMSuppress2DBufD
    rw [hcnt]
    refine ⟨rfl, rfl, ?_⟩
    intro p
    simp only [loopD, upd]
    by_cases h0 : p = 0 <;> by_cases h1 : p = (dstLen : Int) - 1 <;>
      simp [h0, h1]

/-- Witness for C10: a row of length 2 with a large magnitude everywhere
still yields no run, no error, and zeroed cells in both variants. -/
theorem C10_short_rows_witness :
    (WlzNMSuppress2DBufI (fun _ _ => 9) (fun _ => 1) (fun _ => 1)
      (fun _ => 7) 2 0 1 0 0 0).1.itvs = [] ∧
    (WlzNMSuppress2DBufI (fun _ _ => 9) (fun _ => 1) (fun _ => 1)
      (fun _ => 7) 2 0 1 0 0 0).2 = WlzErrorNum.WLZ_ERR_NONE ∧
    (WlzNMSuppress2DBufI (fun _ _ => 9) (fun _ => 1) (fun _ => 1)
      (fun _ => 7) 2 0 1 0 0 0).1.dst 1 = 0 ∧
    (WlzNMSuppress2DBufD (fun _ _ => (9:ℚ)) (fun _ => 1) (fun _ => 1)
      (fun _ => 7) 2 0 1 0 0 0).1.itvs = [] ∧
    (WlzNMSuppress2DBufD (fun _ _ => (9:ℚ)) (fun _ => 1) (fun _ => 1)
      (fun _ => 7) 2 0 1 0 0 0).2 = WlzErrorNum.WLZ_ERR_NONE ∧
    (WlzNMSuppress2DBufD (fun _ _ => (9:ℚ)) (fun _ => 1) (fun _ => 1)
      (fun _ => 7) 2 0 1 0 0 0).1.dst 1 = 0 := by
  have hI := C10_short_rows.1 (fun _ _ => 9) (fun _ => 1) (fun _ => 1)
    (fun _ => 7) 2 0 1 0 0 0 (Or.inr rfl)
  have hD := C10_short_rows.2 (fun _ _ => (9:ℚ)) (fun _ => 1) (fun _ => 1)
    (fun _ => 7) 2 0 1 0 0 0 (Or.inr rfl)
  refine ⟨hI.1, hI.2.1, ?_, hD.1, hD.2.1, ?_⟩
  · have := hI.2.2 1
    norm_num at this
    exact this
  · have := hD.2.2 1
    norm_num at this
    exact this

/-- C5: with every other input fixed, raising the minimum-gradient
threshold never adds a retained pixel nor changes its direction value: for
thresholds `t1 ≤ t2` (in the active numeric kind), any cell whose
direction byte is non-zero under `t2` carries exactly the same byte under
`t1`, in both scanner variants. -/
theorem C5_threshold_monotonic :
    (∀ (grdMBuf : Int → Int → Int) (gYb gXb : Int → Int) (dst0 : Int → Nat)
        (dstLen : Nat) (posX posY orgX orgY t1 t2 : Int), t1 ≤ t2 →
        ∀ p : Int,
        (WlzNMSuppress2DBufI grdMBuf gYb gXb dst0 dstLen posX posY orgX orgY
            t2).1.dst p ≠ 0 →
        (WlzNMSuppress2DBufI grdMBuf gYb gXb dst0 dstLen posX posY orgX orgY
            t1).1.dst p =
          (WlzNMSuppress2DBufI grdMBuf gYb gXb dst0 dstLen posX posY orgX
            orgY t2).1.dst p) ∧
    (∀ (grdMBuf : Int → Int → ℚ) (gYb gXb : Int → ℚ) (dst0 : Int → Nat)
        (dstLen : Nat) (posX posY orgX orgY : Int) (t1 t2 : ℚ), t1 ≤ t2 →
        ∀ p : Int,
        (WlzNMSuppress2DBufD grdMBuf gYb gXb dst0 dstLen posX posY orgX orgY
            t2).1.dst p ≠ 0 →
        (WlzNMSuppress2DBufD grdMBuf gYb gXb dst0 dstLen posX posY orgX orgY
            t1).1.dst p =
          (WlzNMSuppress2DBufD grdMBuf gYb gXb dst0 dstLen posX posY orgX
            orgY t2).1.dst p) := by
  constructor
  · intro grdMBuf gYb gXb dst0 dstLen posX posY orgX orgY t1 t2 h12 p hne
    by_cases hin : 1 ≤ p ∧ p ≤ (dstLen : Int) - 2
    · have hp : p = (((p - 1).toNat : Int)) + 1 := by omega
      have hi : (p - 1).toNat < dstLen - 2 := by omega
      rw [hp] at hne ⊢
      rw [bufI_dst_interior grdMBuf gYb gXb dst0 dstLen posX posY orgX orgY
          t1 _ hi,
        bufI_dst_interior grdMBuf gYb gXb dst0 dstLen posX posY orgX orgY
          t2 _ hi]
      rw [bufI_dst_interior grdMBuf gYb gXb dst0 dstLen posX posY orgX orgY
          t2 _ hi] at hne
      exact byteI_mono _ _ _ _ _ _ _ _ h12 hne
    · by_cases h0 : p = 0
      · subst h0
        rw [bufI_dst_left, bufI_dst_left]
      · by_cases h1 : p = (dstLen : Int) - 1
        · subst h1
          rw [bufI_dst_right, bufI_dst_right]
        · rw [bufI_dst_untouched grdMBuf gYb gXb dst0 dstLen posX posY orgX
              orgY t1 p h0 h1 (by omega),
            bufI_dst_untouched grdMBuf gYb gXb dst0 dstLen posX posY orgX
              orgY t2 p h0 h1 (by omega)]
  · intro grdMBuf gYb gXb dst0 dstLen posX posY orgX orgY t1 t2 h12 p hne
    by_cases hin : 1 ≤ p ∧ p ≤ (dstLen : Int) - 2
    · have hp : p = (((p - 1).toNat : Int)) + 1 := by omega
      have hi : (p - 1).toNat < dstLen - 2 := by omega
      rw [hp] at hne ⊢
      rw [bufD_dst_interior grdMBuf gYb gXb dst0 dstLen posX posY orgX orgY
          t1 _ hi,
        bufD_dst_interior grdMBuf gYb gXb dst0 dstLen posX posY orgX orgY
          t2 _ hi]
      rw [bufD_dst_interior grdMBuf gYb gXb dst0 dstLen posX posY orgX orgY
          t2 _ hi] at hne
      exact byteD_mono _ _ _ _ _ _ _ _ h12 hne
    · by_cases h0 : p = 0
      · subst h0
        rw [bufD_dst_left, bufD_dst_left]
      · by_cases h1 : p = (dstLen : Int) - 1
        · subst h1
          rw [bufD_dst_right, bufD_dst_right]
        · rw [bufD_dst_untouched grdMBuf gYb gXb dst0 dstLen posX posY orgX
              orgY t1 p h0 h1 (by omega),
            bufD_dst_untouched grdMBuf gYb gXb dst0 dstLen posX posY orgX
              orgY t2 p h0 h1 (by omega)]

/-- Witness for C5: the example peak (magnitude 4) is retained at
threshold 3; by monotonicity it is retained with the same byte at
threshold 0, in both variants. -/
theorem C5_threshold_monotonic_witness :
    (WlzNMSuppress2DBufI (fun r p => if r = 1 ∧ p = 1 then 4 else 0)
      (fun _ => 0) (fun _ => 1) (fun _ => 7) 3 0 1 10 20 0).1.dst 1 =
      (WlzNMSuppress2DBufI (fun r p => if r = 1 ∧ p = 1 then 4 else 0)
        (fun _ => 0) (fun _ => 1) (fun _ => 7) 3 0 1 10 20 3).1.dst 1 ∧
    (WlzNMSuppress2DBufD (fun r p => if r = 1 ∧ p = 1 then 4 else 0)
      (fun _ => 0) (fun _ => 1) (fun _ => 7) 3 0 1 10 20 0).1.dst 1 =
      (WlzNMSuppress2DBufD (fun r p => if r = 1 ∧ p = 1 then 4 else 0)
        (fun _ => 0) (fun _ => 1) (fun _ => 7) 3 0 1 10 20 3).1.dst 1 := by
  constructor
  · exact C5_threshold_monotonic.1 (fun r p => if r = 1 ∧ p = 1 then 4 else 0)
      (fun _ => 0) (fun _ => 1) (fun _ => 7) 3 0 1 10 20 0 3 (by norm_num) 1
      (by decide)
  · exact C5_threshold_monotonic.2 (fun r p => if r = 1 ∧ p = 1 then 4 else 0)
      (fun _ => 0) (fun _ => 1) (fun _ => 7) 3 0 1 10 20 0 3 (by norm_num) 1
      (by norm_num [exampleD_dst_one 3 (by norm_num)])

/-- C2 (code bug, floating half): on the example peak row the floating
scanner marks the interior pixel retained (byte `135`) yet appends no
interval — `WlzNMSuppress2DBufD` never increments `itvLen`
(`WlzNMSuppress.c:381-384` only stores the byte), so its `WlzDynItvAdd`
call is dead code; the integer scanner on the same data appends the single
expected run `(line 21, column 11, length 1)`. -/
theorem C2_run_emission :
    (WlzNMSuppress2DBufD (fun r p => if r = 1 ∧ p = 1 then 4 else 0)
      (fun _ => 0) (fun _ => 1) (fun _ => 7) 3 0 1 10 20 0).1.dst 1 = 135 ∧
    (WlzNMSuppress2DBufD (fun r p => if r = 1 ∧ p = 1 then 4 else 0)
      (fun _ => 0) (fun _ => 1) (fun _ => 7) 3 0 1 10 20 0).1.itvs = [] ∧
    (WlzNMSuppress2DBufI (fun r p => if r = 1 ∧ p = 1 then 4 else 0)
      (fun _ => 0) (fun _ => 1) (fun _ => 7) 3 0 1 10 20 0).1.dst 1 = 135 ∧
    (WlzNMSuppress2DBufI (fun r p => if r = 1 ∧ p = 1 then 4 else 0)
      (fun _ => 0) (fun _ => 1) (fun _ => 7) 3 0 1 10 20 0).1.itvs
      = [(21, 11, 1)] := by
  refine ⟨exampleD_dst_one 0 (by norm_num),
    bufD_itvs_nil (fun r p => if r = 1 ∧ p = 1 then 4 else 0)
      (fun _ => 0) (fun _ => 1) (fun _ => 7) 3 0 1 10 20 0,
    by decide, by decide⟩

/-- C6 counterexample: with integer-representable inputs (centre magnitude
2, flanking magnitudes 1 along the row, `gY = 0`, `gX = 1`, threshold 0)
the integer scanner rejects the interior pixel — truncating division gives
slope `tdiv 1 2 = 0`, not `> 0` — while the floating scanner retains it
with byte `135` — exact slope `1/2 > DBL_EPSILON`.  The two variants do
not produce the same retained set. -/
theorem C6_counterexample :
    (WlzNMSuppress2DBufI
      (fun r p => if r = 1 ∧ p = 1 then 2 else if r = 1 then 1 else 0)
      (fun _ => 0) (fun _ => 1) (fun _ => 7) 3 0 1 0 0 0).1.dst 1 = 0 ∧
    (WlzNMSuppress2DBufD
      (fun r p => if r = 1 ∧ p = 1 then 2 else if r = 1 then 1 else 0)
      (fun _ => 0) (fun _ => 1) (fun _ => 7) 3 0 1 0 0 0).1.dst 1 = 135 := by
  constructor
  · decide
  · have h := bufD_dst_interior
      (fun r p => if r = 1 ∧ p = 1 then 2 else if r = 1 then 1 else 0)
      (fun _ => 0) (fun _ => 1) (fun _ => 7) 3 0 1 0 0 0 0 (by decide)
    norm_num at h
    rw [h, byteD_eq_ite, dirCodeD_01]
    norm_num [interpD, bufRowQ, DBL_EPSILON]
    decide

/-- C6 (amended): on integer-representable inputs every pixel retained by
the integer scanner is retained with the identical direction byte by the
floating scanner — the magnitude gates agree and the direction codes are
computed identically, while the truncating slope division only makes the
integer path stricter.  The converse containment fails (see the
counterexample), and the appended runs differ because the floating scanner
appends none. -/
theorem C6_integer_refines_floating :
    ∀ (grdMBuf : Int → Int → Int) (gYb gXb : Int → Int) (dst0 : Int → Nat)
      (dstLen : Nat) (posX posY orgX orgY minGM : Int) (i : Nat),
      i < dstLen - 2 →
      (WlzNMSuppress2DBufI grdMBuf gYb gXb dst0 dstLen posX posY orgX orgY
          minGM).1.dst ((i : Int) + 1) ≠ 0 →
      (WlzNMSuppress2DBufD (fun r p => (grdMBuf r p : ℚ))
          (fun p => (gYb p : ℚ)) (fun p => (gXb p : ℚ)) dst0 dstLen posX
          posY orgX orgY (minGM : ℚ)).1.dst ((i : Int) + 1) =
        (WlzNMSuppress2DBufI grdMBuf gYb gXb dst0 dstLen posX posY orgX
          orgY minGM).1.dst ((i : Int) + 1) := by
  intro grdMBuf gYb gXb dst0 dstLen posX posY orgX orgY minGM i hi hne
  rw [bufI_dst_interior grdMBuf gYb gXb dst0 dstLen posX posY orgX orgY
      minGM i hi] at hne ⊢
  rw [bufD_dst_interior (fun r p => (grdMBuf r p : ℚ))
      (fun p => (gYb p : ℚ)) (fun p => (gXb p : ℚ)) dst0 dstLen posX posY
      orgX orgY (minGM : ℚ) i hi]
  have hrow : ∀ d : Int, bufRowQ (fun r p => (grdMBuf r p : ℚ)) posY d =
      fun p => (bufRow grdMBuf posY d p : ℚ) := by
    intro d
    rfl
  rw [hrow (-1), hrow 0, hrow 1]
  exact byteD_cast_of_byteI_ne (bufRow grdMBuf posY (-1))
    (bufRow grdMBuf posY 0) (bufRow grdMBuf posY 1)
    (gYb ((i : Int) + 1)) (gXb ((i : Int) + 1)) minGM (posX + i) hne

/-- Witness for the amended C6: the example peak (magnitude 4) is retained
by the integer scanner with byte `135`, hence by the floating scanner with
the same byte. -/
theorem C6_integer_refines_floating_witness :
    (WlzNMSuppress2DBufD
      (fun r p => (((fun r p => if r = 1 ∧ p = 1 then 4 else 0 :
        Int → Int → Int) r p) : ℚ))
      (fun p => (((0 : Int)) : ℚ)) (fun p => (((1 : Int)) : ℚ))
      (fun _ => 7) 3 0 1 10 20 ((0 : Int) : ℚ)).1.dst 1 =
    (WlzNMSuppress2DBufI (fun r p => if r = 1 ∧ p = 1 then 4 else 0)
      (fun _ => 0) (fun _ => 1) (fun _ => 7) 3 0 1 10 20 0).1.dst 1 := by
  have h := C6_integer_refines_floating
    (fun r p => if r = 1 ∧ p = 1 then 4 else 0)
    (fun _ => 0) (fun _ => 1) (fun _ => 7) 3 0 1 10 20 0 0 (by decide)
    (by decide)
  norm_num at h ⊢
  exact h

/-- C7: for every triple of non-null 2D inputs whose domains share no
common pixel, `WlzNMSuppress` returns an explicit empty object and reports
`WLZ_ERR_NONE`, for any 2D worker and any `grdZ` argument. -/
theorem C7_empty_intersection
    (suppress2D : WlzObject → WlzObject → WlzObject → Int →
      Option WlzObject × WlzErrorNum)
    (gM gY gX : WlzObject) (grdZ : Option WlzObject) (minThrV : Int)
    (hM : gM.otype = WlzObjectType.WLZ_2D_DOMAINOBJ)
    (hY : gY.otype = WlzObjectType.WLZ_2D_DOMAINOBJ)
    (hX : gX.otype = WlzObjectType.WLZ_2D_DOMAINOBJ)
    (hdisj : ∀ p, p ∈ gM.domain → p ∈ gY.domain → p ∈ gX.domain → False) :
    WlzNMSuppress suppress2D (some gM) grdZ (some gY) (some gX) minThrV =
      (some ⟨WlzObjectType.WLZ_EMPTY_OBJ, [], []⟩,
       WlzErrorNum.WLZ_ERR_NONE) := by
  obtain ⟨tM, dM, vM⟩ := gM
  obtain ⟨tY, dY, vY⟩ := gY
  obtain ⟨tX, dX, vX⟩ := gX
  simp only at hM hY hX
  subst hM
  subst hY
  subst hX
  simp only at hdisj
  have hfil : (List.filter
      (fun p => decide (p ∈ dY) && decide (p ∈ dX)) dM).isEmpty
      = true := by
    rw [List.isEmpty_eq_true, List.filter_eq_nil_iff]
    intro p hp
    simp only [Bool.and_true, Bool.and_eq_true, decide_eq_true_eq, not_and]
    intro h1 h2
    exact hdisj p hp h1 h2
  simp only [WlzNMSuppress, WlzIntersectN, WlzMakeEmpty, seqOpt,
    Option.map_some', List.all_cons, List.all_nil, beq_self_eq_true,
    Bool.and_true, Bool.and_self, if_true, ite_true]
  rw [hfil]
  simp

/-- Witness for C7: three concrete 2D objects with pairwise-compatible but
jointly disjoint domains give the explicit empty object without error. -/
theorem C7_empty_intersection_witness :
    WlzNMSuppress (fun _ _ _ _ => (none, WlzErrorNum.WLZ_ERR_NONE))
      (some ⟨WlzObjectType.WLZ_2D_DOMAINOBJ, [(0, 0)], [5]⟩) none
      (some ⟨WlzObjectType.WLZ_2D_DOMAINOBJ, [(1, 1)], [6]⟩)
      (some ⟨WlzObjectType.WLZ_2D_DOMAINOBJ, [(0, 0)], [7]⟩) 2 =
      (some ⟨WlzObjectType.WLZ_EMPTY_OBJ, [], []⟩,
       WlzErrorNum.WLZ_ERR_NONE) := by
  exact C7_empty_intersection (fun _ _ _ _ => (none, WlzErrorNum.WLZ_ERR_NONE))
    ⟨WlzObjectType.WLZ_2D_DOMAINOBJ, [(0, 0)], [5]⟩
    ⟨WlzObjectType.WLZ_2D_DOMAINOBJ, [(1, 1)], [6]⟩
    ⟨WlzObjectType.WLZ_2D_DOMAINOBJ, [(0, 0)], [7]⟩ none 2 rfl rfl rfl
    (by decide)

/-- C8: a call whose magnitude object is a 3D domain object with a
non-empty four-way intersection fails with `WLZ_ERR_OBJECT_TYPE` and a
NULL object, and the unimplemented `WlzNMSuppress3D` itself always returns
`(NULL, WLZ_ERR_OBJECT_TYPE)` — no computed result is ever returned. -/
theorem C8_3d_unsupported
    (suppress2D : WlzObject → WlzObject → WlzObject → Int →
      Option WlzObject × WlzErrorNum)
    (gM gZ gY gX : WlzObject) (minThrV : Int) (p : Int × Int)
    (hM : gM.otype = WlzObjectType.WLZ_3D_DOMAINOBJ)
    (hZ : gZ.otype = WlzObjectType.WLZ_3D_DOMAINOBJ)
    (hY : gY.otype = WlzObjectType.WLZ_3D_DOMAINOBJ)
    (hX : gX.otype = WlzObjectType.WLZ_3D_DOMAINOBJ)
    (hpM : p ∈ gM.domain) (hpZ : p ∈ gZ.domain) (hpY : p ∈ gY.domain)
    (hpX : p ∈ gX.domain) :
    WlzNMSuppress suppress2D (some gM) (some gZ) (some gY) (some gX)
        minThrV =
      (none, WlzErrorNum.WLZ_ERR_OBJECT_TYPE) ∧
    (∀ (t0 t1 t2 t3 : WlzObject) (v : Int),
      WlzNMSuppress3D t0 t1 t2 t3 v =
        (none, WlzErrorNum.WLZ_ERR_OBJECT_TYPE)) := by
  refine ⟨?_, fun t0 t1 t2 t3 v => rfl⟩
  obtain ⟨tM, dM, vM⟩ := gM
  obtain ⟨tZ, dZ, vZ⟩ := gZ
  obtain ⟨tY, dY, vY⟩ := gY
  obtain ⟨tX, dX, vX⟩ := gX
  simp only at hM hZ hY hX hpM hpZ hpY hpX
  subst hM
  subst hZ
  subst hY
  subst hX
  have hfil : (List.filter
      (fun q => decide (q ∈ dZ) && (decide (q ∈ dY) && decide (q ∈ dX)))
      dM).isEmpty = false := by
    have hmem : p ∈ List.filter
        (fun q => decide (q ∈ dZ) && (decide (q ∈ dY) && decide (q ∈ dX)))
        dM := by
      rw [List.mem_filter]
      exact ⟨hpM, by simp [hpZ, hpY, hpX]⟩
    cases hfe : (List.filter
        (fun q => decide (q ∈ dZ) && (decide (q ∈ dY) && decide (q ∈ dX)))
        dM).isEmpty
    · rfl
    · rw [List.isEmpty_eq_true] at hfe
      rw [hfe] at hmem
      exact absurd hmem (List.not_mem_nil p)
  simp only [WlzNMSuppress, WlzIntersectN, seqOpt, Option.map_some',
    List.all_cons, List.all_nil, beq_self_eq_true, Bool.and_true,
    Bool.and_self, if_true, ite_true]
  rw [hfil]
  simp

/-- Witness for C8: four concrete 3D objects sharing the pixel `(0, 0)`
make the call fail with `WLZ_ERR_OBJECT_TYPE` and a NULL result. -/
theorem C8_3d_unsupported_witness :
    WlzNMSuppress (fun _ _ _ _ => (none, WlzErrorNum.WLZ_ERR_NONE))
      (some ⟨WlzObjectType.WLZ_3D_DOMAINOBJ, [(0, 0)], [1]⟩)
      (some ⟨WlzObjectType.WLZ_3D_DOMAINOBJ, [(0, 0), (1, 0)], [2]⟩)
      (some ⟨WlzObjectType.WLZ_3D_DOMAINOBJ, [(0, 0)], [3]⟩)
      (some ⟨WlzObjectType.WLZ_3D_DOMAINOBJ, [(0, 0)], [4]⟩) 2 =
      (none, WlzErrorNum.WLZ_ERR_OBJECT_TYPE) := by
  exact C8_3d_unsupported (fun _ _ _ _ => (none, WlzErrorNum.WLZ_ERR_NONE))
    ⟨WlzObjectType.WLZ_3D_DOMAINOBJ, [(0, 0)], [1]⟩
    ⟨WlzObjectType.WLZ_3D_DOMAINOBJ, [(0, 0), (1, 0)], [2]⟩
    ⟨WlzObjectType.WLZ_3D_DOMAINOBJ, [(0, 0)], [3]⟩
    ⟨WlzObjectType.WLZ_3D_DOMAINOBJ, [(0, 0)], [4]⟩ 2 (0, 0) rfl rfl rfl
    rfl (by decide) (by decide) (by decide) (by decide) |>.1

/-- C9: when the magnitude object is 2D, the result of `WlzNMSuppress` is
completely independent of the `grdZ` argument: two calls identical except
for `grdZ` (including `grdZ = NULL`) return the same object and error
code, for any 2D worker. -/
theorem C9_grdZ_independence
    (suppress2D : WlzObject → WlzObject → WlzObject → Int →
      Option WlzObject × WlzErrorNum)
    (gM : WlzObject) (grdZ grdZ' grdY grdX : Option WlzObject)
    (minThrV : Int)
    (hM : gM.otype = WlzObjectType.WLZ_2D_DOMAINOBJ) :
    WlzNMSuppress suppress2D (some gM) grdZ grdY grdX minThrV =
      WlzNMSuppress suppress2D (some gM) grdZ' grdY grdX minThrV := by
  obtain ⟨tM, dM, vM⟩ := gM
  simp only at hM
  subst hM
  rfl

/-- Witness for C9: a concrete 2D call with `grdZ = NULL` equals the same
call with an arbitrary non-null `grdZ`. -/
theorem C9_grdZ_independence_witness :
    WlzNMSuppress (fun _ _ _ _ => (none, WlzErrorNum.WLZ_ERR_NONE))
      (some ⟨WlzObjectType.WLZ_2D_DOMAINOBJ, [(0, 0)], [5]⟩) none
      (some ⟨WlzObjectType.WLZ_2D_DOMAINOBJ, [(0, 0)], [6]⟩)
      (some ⟨WlzObjectType.WLZ_2D_DOMAINOBJ, [(0, 0)], [7]⟩) 2 =
      WlzNMSuppress (fun _ _ _ _ => (none, WlzErrorNum.WLZ_ERR_NONE))
        (some ⟨WlzObjectType.WLZ_2D_DOMAINOBJ, [(0, 0)], [5]⟩)
        (some ⟨WlzObjectType.WLZ_3D_DOMAINOBJ, [(9, 9)], [9]⟩)
        (some ⟨WlzObjectType.WLZ_2D_DOMAINOBJ, [(0, 0)], [6]⟩)
        (some ⟨WlzObjectType.WLZ_2D_DOMAINOBJ, [(0, 0)], [7]⟩) 2 := by
  exact C9_grdZ_independence (fun _ _ _ _ => (none, WlzErrorNum.WLZ_ERR_NONE))
    ⟨WlzObjectType.WLZ_2D_DOMAINOBJ, [(0, 0)], [5]⟩ none
    (some ⟨WlzObjectType.WLZ_3D_DOMAINOBJ, [(9, 9)], [9]⟩)
    (some ⟨WlzObjectType.WLZ_2D_DOMAINOBJ, [(0, 0)], [6]⟩)
    (some ⟨WlzObjectType.WLZ_2D_DOMAINOBJ, [(0, 0)], [7]⟩) 2 rfl

end Woolz
